import Mathlib

/-!
# Trill capacitive-touch sensor driver: model of `libraries/Trill/Trill.cpp`

A shallow embedding of the driver.  The object state is a record, the I2C bus is
an explicit value holding the scripted replies of the device together with a log
of every bus call the driver makes, and each member function becomes a function
from (state, bus) to (return code, state, bus).

Conventions:
* `uint8_t` and `char` values are natural numbers below 256, `unsigned int`
  values natural numbers below 2^32; enum values (`Mode`, `Device`) are integers.
* `float` values are idealised as exact rationals; `none` stands for a value that
  is not a defined finite number (division by zero, the result of an undefined
  shift, an element read outside the rescale table).
-/

namespace Bela

/-! ## Constants of the header -/

/-- Constants and enumerator values declared in the header `Trill.h`, which is not
among the sources at hand: they are parameters of the model.  The command and
offset constants are stored in `char` frames, so they are byte values. -/
structure Consts where
  kOffsetCommand : Nat
  kOffsetData : Nat
  kCommandMode : Nat
  kCommandScanSettings : Nat
  kCommandPrescaler : Nat
  kCommandNoiseThreshold : Nat
  kCommandIdac : Nat
  kCommandBaselineUpdate : Nat
  kCommandMinimumSize : Nat
  kCommandAutoScanInterval : Nat
  kCommandIdentify : Nat
  kNumChannelsBar : Nat
  kNumChannelsRing : Nat
  kNumChannelsMax : Nat
  kMaxTouchNum1D : Nat
  kMaxTouchNum2D : Nat
  kCentroidLengthDefault : Nat
  kCentroidLengthRing : Nat
  kCentroidLength2D : Nat
  kRawLength : Nat
  commandSleepTime : Nat
  /-- Enumerator `Trill::NONE` of `Device`. -/
  NONE : Int
  /-- Enumerator `Trill::CENTROID` of `Mode`. -/
  CENTROID : Int

/-- Enumerator `Trill::UNKNOWN`, numbered in the comments of `trillRescaleFactors`. -/
def UNKNOWN : Int := 0
/-- Enumerator `Trill::BAR`. -/
def BAR : Int := 1
/-- Enumerator `Trill::SQUARE`. -/
def SQUARE : Int := 2
/-- Enumerator `Trill::CRAFT`. -/
def CRAFT : Int := 3
/-- Enumerator `Trill::RING`. -/
def RING : Int := 4
/-- Enumerator `Trill::HEX`. -/
def HEX : Int := 5

/-- One concrete choice of the header constants, used to run the model on examples. -/
def trillConsts : Consts where
  kOffsetCommand := 0
  kOffsetData := 4
  kCommandMode := 1
  kCommandScanSettings := 2
  kCommandPrescaler := 3
  kCommandNoiseThreshold := 4
  kCommandIdac := 5
  kCommandBaselineUpdate := 6
  kCommandMinimumSize := 7
  kCommandAutoScanInterval := 16
  kCommandIdentify := 255
  kNumChannelsBar := 26
  kNumChannelsRing := 28
  kNumChannelsMax := 30
  kMaxTouchNum1D := 5
  kMaxTouchNum2D := 4
  kCentroidLengthDefault := 20
  kCentroidLengthRing := 24
  kCentroidLength2D := 32
  kRawLength := 60
  commandSleepTime := 10000
  NONE := -1
  CENTROID := 0

/-! ## Idealised `float` values -/

/-- A `float`: an exact rational, or `none` for a value that is not a defined
finite number. -/
abbrev FloatVal := Option ℚ

/-- Addition of `float`s. -/
def fadd : FloatVal → FloatVal → FloatVal
  | some x, some y => some (x + y)
  | _, _ => none

/-- Multiplication of `float`s. -/
def fmul : FloatVal → FloatVal → FloatVal
  | some x, some y => some (x * y)
  | _, _ => none

/-- Division of `float`s; a zero divisor gives no finite value. -/
def fdiv : FloatVal → FloatVal → FloatVal
  | some x, some y => if y = 0 then none else some (x / y)
  | _, _ => none

/-- The test `a > q`, false on a non-finite value. -/
def fgt (a : FloatVal) (q : ℚ) : Bool :=
  match a with
  | some x => decide (q < x)
  | none => false

/-- The test `a < q`, false on a non-finite value. -/
def flt (a : FloatVal) (q : ℚ) : Bool :=
  match a with
  | some x => decide (x < q)
  | none => false

/-- The expression `1 << n` on a 32-bit `int`: defined for shift counts below 31. -/
def shl1 (n : Nat) : Option Int :=
  if n < 31 then some (2 ^ n) else none

/-- Conversion of an integer expression to `float`. -/
def ofInt (z : Option Int) : FloatVal :=
  z.map fun v => (v : ℚ)

/-- The conversion `char(x)` of a `float`: truncation toward zero, kept as a byte.
The conversion of a non-finite value is undefined; the model yields 0. -/
def toChar : FloatVal → Nat
  | some x => ((x.num.tdiv (x.den : Int)) % 256).toNat
  | none => 0

/-! ## The rescale table -/

/-- The struct `trillRescaleFactors_t`; a member left out of an initialiser is 0. -/
structure trillRescaleFactors_t where
  pos : ℚ
  posH : ℚ
  size : ℚ

/-- The table `trillRescaleFactors`, indexed by the device code. -/
def trillRescaleFactors : List trillRescaleFactors_t :=
  [ { pos := 1, posH := 0, size := 1 },          -- UNKNOWN = 0
    { pos := 3200, posH := 0, size := 4566 },    -- BAR = 1
    { pos := 1792, posH := 1792, size := 2700 }, -- SQUARE = 2
    { pos := 4096, posH := 0, size := 1 },       -- CRAFT = 3
    { pos := 3584, posH := 0, size := 5000 },    -- RING = 4
    { pos := 1920, posH := 1664, size := 4000 } ] -- HEX = 5

/-- The element `trillRescaleFactors[d]`; outside the table nothing is defined. -/
def rescaleAt (d : Int) : Option trillRescaleFactors_t :=
  if 0 ≤ d then trillRescaleFactors.get? d.toNat else none

/-! ## The bus -/

/-- One call of the driver on the bus file descriptor (or a sleep between calls). -/
inductive BusOp where
  | write (frame : List Nat)
  | read (n : Nat)
  | usleep (t : Nat)
  deriving DecidableEq, Repr

/-- The I2C bus seen from the driver: the return values the next `::write` calls
will give, the outcomes of the next `::read` calls (`none` is an error, returning
-1; `some bytes` are the bytes the device has to deliver), and the log of the
calls made so far.  Once a script is used up every further call fails with -1. -/
structure Bus where
  writeReplies : List Int
  readReplies : List (Option (List Nat))
  log : List BusOp

namespace Bus

/-- The call `::write(i2C_file, frame, frame.length)`: returns the scripted count. -/
def write (b : Bus) (frame : List Nat) : Int × Bus :=
  match b.writeReplies with
  | [] => (-1, { b with log := b.log ++ [BusOp.write frame] })
  | r :: rest => (r, { b with writeReplies := rest, log := b.log ++ [BusOp.write frame] })

/-- The call `::read(i2C_file, buf, n)`: at most `n` of the delivered bytes are
stored at the start of `buf`, and their number is returned; an error returns -1
and leaves `buf` as it was. -/
def read (b : Bus) (buf : Nat → Nat) (n : Nat) : Int × (Nat → Nat) × Bus :=
  match b.readReplies with
  | [] => (-1, buf, { b with log := b.log ++ [BusOp.read n] })
  | none :: rest => (-1, buf, { b with readReplies := rest, log := b.log ++ [BusOp.read n] })
  | some bytes :: rest =>
    let got := bytes.take n
    ((got.length : Int), (fun i => if i < got.length then got.getD i 0 % 256 else buf i),
      { b with readReplies := rest, log := b.log ++ [BusOp.read n] })

/-- The call `usleep(t)`. -/
def usleep (b : Bus) (t : Nat) : Bus :=
  { b with log := b.log ++ [BusOp.usleep t] }

/-- The return value the next `::write` call will give. -/
def nextWrite (b : Bus) : Int :=
  b.writeReplies.headD (-1)

/-- The return value of the `::read` call of `n` bytes that comes after `j` other
reads. -/
def readRet (b : Bus) (j n : Nat) : Int :=
  match b.readReplies.get? j with
  | some (some bytes) => ((bytes.take n).length : Int)
  | _ => -1

end Bus

/-! ## The driver object -/

/-- The data members of `class Trill` that the member functions below use. -/
structure Trill where
  mode_ : Int
  device_type_ : Int
  firmware_version_ : Nat
  num_touches_ : Nat
  dataBuffer : Nat → Nat
  preparedForDataRead_ : Bool
  numBits : Nat
  posRescale : FloatVal
  posHRescale : FloatVal
  sizeRescale : FloatVal
  rawRescale : FloatVal
  rawData : Nat → FloatVal

/-- What a member function leaves behind: its return value, the object and the bus. -/
structure Res where
  ret : Int
  st : Trill
  bus : Bus

namespace Trill

/-- The preprocessor definition `MAX_TOUCH_1D_OR_2D`. -/
def MAX_TOUCH_1D_OR_2D (k : Consts) (s : Trill) : Nat :=
  if s.device_type_ = SQUARE ∨ s.device_type_ = HEX then k.kMaxTouchNum2D else k.kMaxTouchNum1D

/-- The function `Trill::identify` (lines 107-135). -/
def identify (k : Consts) (s : Trill) (b : Bus) : Res :=
  let w := b.write [k.kOffsetCommand, k.kCommandIdentify]
  if w.1 ≠ 2 then
    { ret := -1, st := s, bus := w.2 }
  else
    let s1 := { s with preparedForDataRead_ := false }
    let b1 := w.2.usleep k.commandSleepTime
    let r1 := b1.read s1.dataBuffer 4
    let r2 := r1.2.2.read r1.2.1 4
    if r2.1 ≠ 4 then
      { ret := -1, st := { s1 with dataBuffer := r2.2.1, device_type_ := k.NONE }, bus := r2.2.2 }
    else
      { ret := 0,
        st := { s1 with dataBuffer := r2.2.1,
                        device_type_ := (r2.2.1 1 : Int),
                        firmware_version_ := r2.2.1 2 },
        bus := r2.2.2 }

/-- The function `Trill::updateRescale` (lines 137-144); `12 - numBits` is an
`unsigned int` difference. -/
def updateRescale (s : Trill) : Trill :=
  let scale : FloatVal := ofInt (shl1 ((12 + 4294967296 - s.numBits) % 4294967296))
  let e := rescaleAt s.device_type_
  { s with
    posRescale := fdiv (some 1) (e.map fun f => f.pos),
    posHRescale := fdiv (some 1) (e.map fun f => f.posH),
    sizeRescale := fdiv scale (e.map fun f => f.size),
    rawRescale := fdiv (some 1) (ofInt (shl1 s.numBits)) }

/-- The function `Trill::setMode` (lines 153-167). -/
def setMode (k : Consts) (mode : Int) (s : Trill) (b : Bus) : Res :=
  let w := b.write [k.kOffsetCommand, k.kCommandMode, (mode % 256).toNat]
  if w.1 ≠ 3 then
    { ret := 1, st := s, bus := w.2 }
  else
    { ret := 0, st := { s with preparedForDataRead_ := false, mode_ := mode },
      bus := w.2.usleep k.commandSleepTime }

/-- The function `Trill::setScanSettings` (lines 169-190). -/
def setScanSettings (k : Consts) (speed num_bits : Nat) (s : Trill) (b : Bus) : Res :=
  let speed := if speed > 3 then 3 else speed
  let num_bits := if num_bits < 9 then 9 else num_bits
  let num_bits := if num_bits > 16 then 16 else num_bits
  let s1 := { s with preparedForDataRead_ := false }
  let w := b.write [k.kOffsetCommand, k.kCommandScanSettings, speed, num_bits]
  if w.1 ≠ 4 then
    { ret := 1, st := s1, bus := w.2 }
  else
    { ret := 0, st := updateRescale { s1 with numBits := num_bits },
      bus := w.2.usleep k.commandSleepTime }

/-- The function `Trill::setPrescaler` (lines 192-205). -/
def setPrescaler (k : Consts) (prescaler : Nat) (s : Trill) (b : Bus) : Res :=
  let w := b.write [k.kOffsetCommand, k.kCommandPrescaler, prescaler]
  if w.1 ≠ 3 then
    { ret := 1, st := s, bus := w.2 }
  else
    { ret := 0, st := { s with preparedForDataRead_ := false },
      bus := w.2.usleep k.commandSleepTime }

/-- The byte `thByte` that `Trill::setNoiseThreshold` computes (lines 209-214). -/
def thByte (threshold : ℚ) (numBits : Nat) : Nat :=
  let t : FloatVal := fmul (some threshold) (ofInt (shl1 numBits))
  let t := if fgt t 255 then some 255 else t
  let t := if flt t 0 then some 0 else t
  toChar (fadd t (some (1 / 2)))

/-- The function `Trill::setNoiseThreshold` (lines 207-226). -/
def setNoiseThreshold (k : Consts) (threshold : ℚ) (s : Trill) (b : Bus) : Res :=
  let w := b.write [k.kOffsetCommand, k.kCommandNoiseThreshold, thByte threshold s.numBits]
  if w.1 ≠ 3 then
    { ret := 1, st := s, bus := w.2 }
  else
    { ret := 0, st := { s with preparedForDataRead_ := false },
      bus := w.2.usleep k.commandSleepTime }

/-- The function `Trill::setIDACValue` (lines 229-242). -/
def setIDACValue (k : Consts) (value : Nat) (s : Trill) (b : Bus) : Res :=
  let w := b.write [k.kOffsetCommand, k.kCommandIdac, value]
  if w.1 ≠ 3 then
    { ret := 1, st := s, bus := w.2 }
  else
    { ret := 0, st := { s with preparedForDataRead_ := false },
      bus := w.2.usleep k.commandSleepTime }

/-- The function `Trill::setMinimumTouchSize` (lines 244-257); `size` is a `uint16_t`. -/
def setMinimumTouchSize (k : Consts) (size : Nat) (s : Trill) (b : Bus) : Res :=
  let w := b.write [k.kOffsetCommand, k.kCommandMinimumSize, (size >>> 8) % 256, (size &&& 0xFF) % 256]
  if w.1 ≠ 4 then
    { ret := 1, st := s, bus := w.2 }
  else
    { ret := 0, st := { s with preparedForDataRead_ := false },
      bus := w.2.usleep k.commandSleepTime }

/-- The function `Trill::setAutoScanInterval` (lines 259-272); `interval` is a `uint16_t`. -/
def setAutoScanInterval (k : Consts) (interval : Nat) (s : Trill) (b : Bus) : Res :=
  let w := b.write
    [k.kOffsetCommand, k.kCommandAutoScanInterval, (interval >>> 8) % 256, (interval &&& 0xFF) % 256]
  if w.1 ≠ 4 then
    { ret := 1, st := s, bus := w.2 }
  else
    { ret := 0, st := { s with preparedForDataRead_ := false },
      bus := w.2.usleep k.commandSleepTime }

/-- The function `Trill::updateBaseLine` (lines 274-287). -/
def updateBaseLine (k : Consts) (s : Trill) (b : Bus) : Res :=
  let w := b.write [k.kOffsetCommand, k.kCommandBaselineUpdate]
  if w.1 ≠ 2 then
    { ret := 1, st := s, bus := w.2 }
  else
    { ret := 0, st := { s with preparedForDataRead_ := false },
      bus := w.2.usleep k.commandSleepTime }

/-- The function `Trill::prepareForDataRead` (lines 289-301). -/
def prepareForDataRead (k : Consts) (s : Trill) (b : Bus) : Res :=
  let w := b.write [k.kOffsetData]
  if w.1 ≠ 1 then
    { ret := 1, st := s, bus := w.2 }
  else
    { ret := 0, st := { s with preparedForDataRead_ := true },
      bus := w.2.usleep k.commandSleepTime }

/-- The function `Trill::getNumChannels` (lines 505-512). -/
def getNumChannels (k : Consts) (s : Trill) : Nat :=
  if s.device_type_ = BAR then k.kNumChannelsBar
  else if s.device_type_ = RING then k.kNumChannelsRing
  else k.kNumChannelsMax

/-- The value stored in `rawData[i]` by the loop of `Trill::readI2C` (line 319). -/
def rawValue (s : Trill) (i : Nat) : FloatVal :=
  fmul (some ((((s.dataBuffer (2 * i) <<< 8) + s.dataBuffer (2 * i + 1)) &&& 0x0FFF : Nat) : ℚ))
    s.rawRescale

/-- The statement `if(!preparedForDataRead_) prepareForDataRead();` of `readI2C`
(lines 309-310) and `readLocations` (lines 329-330): the return value of the call is
not looked at. -/
def prepareIfNeeded (k : Consts) (s : Trill) (b : Bus) : Trill × Bus :=
  if !s.preparedForDataRead_ then
    ((prepareForDataRead k s b).st, (prepareForDataRead k s b).bus)
  else (s, b)

/-- The function `Trill::readI2C` (lines 304-323). -/
def readI2C (k : Consts) (s : Trill) (b : Bus) : Res :=
  if k.NONE = s.device_type_ then
    { ret := 1, st := s, bus := b }
  else
    let p := prepareIfNeeded k s b
    let r := p.2.read p.1.dataBuffer k.kRawLength
    let s1 := { p.1 with dataBuffer := r.2.1 }
    if r.1 ≠ (k.kRawLength : Int) then
      { ret := 1, st := s1, bus := r.2.2 }
    else
      { ret := 0,
        st := (List.range (getNumChannels k s1)).foldl
          (fun t i => { t with rawData := Function.update t.rawData i (rawValue t i) }) s1,
        bus := r.2.2 }

/-- The two search loops of `Trill::readLocations` (lines 347-351 and 358-363):
starting from `locations`, step to the first slot below `max` whose two bytes, at
`2 * locations + off`, are both 0xFF.  The first argument bounds the number of
iterations; `max` iterations are always enough. -/
def scanLoop (buf : Nat → Nat) (off max : Nat) : Nat → Nat → Nat
  | 0, locations => locations
  | fuel + 1, locations =>
    if locations < max then
      if buf (2 * locations + off) = 0xFF ∧ buf (2 * locations + off + 1) = 0xFF then locations
      else scanLoop buf off max fuel (locations + 1)
    else locations

/-- The function `Trill::readLocations` (lines 325-368); `num_touches_` is a byte. -/
def readLocations (k : Consts) (s : Trill) (b : Bus) : Res :=
  if k.NONE = s.device_type_ then
    { ret := 1, st := s, bus := b }
  else
    let p := prepareIfNeeded k s b
    let bytesToRead := k.kCentroidLengthDefault
    let bytesToRead :=
      if p.1.device_type_ = SQUARE ∨ p.1.device_type_ = HEX then k.kCentroidLength2D
      else bytesToRead
    let bytesToRead := if p.1.device_type_ = RING then k.kCentroidLengthRing else bytesToRead
    let r := p.2.read p.1.dataBuffer bytesToRead
    let s1 := { p.1 with dataBuffer := r.2.1 }
    if r.1 ≠ (bytesToRead : Int) then
      { ret := 1, st := { s1 with num_touches_ := 0 }, bus := r.2.2 }
    else
      let max := MAX_TOUCH_1D_OR_2D k s1
      let locations := scanLoop s1.dataBuffer 0 max max 0
      let s2 := { s1 with num_touches_ := locations % 256 }
      if s2.device_type_ = SQUARE ∨ s2.device_type_ = HEX then
        let locations := scanLoop s2.dataBuffer (4 * max) max max 0
        { ret := 0,
          st := { s2 with num_touches_ := (s2.num_touches_ ||| (locations <<< 4)) % 256 },
          bus := r.2.2 }
      else
        { ret := 0, st := s2, bus := r.2.2 }

/-- The function `Trill::is1D` (lines 370-382). -/
def is1D (k : Consts) (s : Trill) : Bool :=
  if k.CENTROID ≠ s.mode_ then false
  else if s.device_type_ = BAR ∨ s.device_type_ = RING ∨ s.device_type_ = CRAFT then true
  else false

/-- The function `Trill::is2D` (lines 384-395). -/
def is2D (k : Consts) (s : Trill) : Bool :=
  if k.CENTROID ≠ s.mode_ then false
  else if s.device_type_ = SQUARE ∨ s.device_type_ = HEX then true
  else false

/-- The function `Trill::numberOfTouches` (lines 397-404). -/
def numberOfTouches (k : Consts) (s : Trill) : Nat :=
  if s.mode_ ≠ k.CENTROID then 0
  else s.num_touches_ &&& 0x0F

/-- The function `Trill::numberOfHorizontalTouches` (lines 406-413). -/
def numberOfHorizontalTouches (k : Consts) (s : Trill) : Nat :=
  if s.mode_ ≠ k.CENTROID ∨ (s.device_type_ ≠ SQUARE ∧ s.device_type_ ≠ HEX) then 0
  else s.num_touches_ >>> 4

/-- The 16-bit value `dataBuffer[j] * 256 + dataBuffer[j + 1]` the accessors decode. -/
def word16 (s : Trill) (j : Nat) : ℚ :=
  ((s.dataBuffer j * 256 + s.dataBuffer (j + 1) : Nat) : ℚ)

/-- The function `Trill::touchLocation` (lines 415-426); `touch_num` is a byte. -/
def touchLocation (k : Consts) (s : Trill) (touch_num : Nat) : FloatVal :=
  if s.mode_ ≠ k.CENTROID then some (-1)
  else if touch_num ≥ MAX_TOUCH_1D_OR_2D k s then some (-1)
  else fmul (some (word16 s (2 * touch_num))) s.posRescale

/-- The function `Trill::getButtonValue` (lines 428-438); `button_num` is a byte. -/
def getButtonValue (k : Consts) (s : Trill) (button_num : Nat) : FloatVal :=
  if s.mode_ ≠ k.CENTROID then some (-1)
  else if button_num > 1 then some (-1)
  else if s.device_type_ ≠ RING then some (-1)
  else
    fmul (some ((((s.dataBuffer (4 * MAX_TOUCH_1D_OR_2D k s + 2 * button_num) <<< 8)
        + s.dataBuffer (4 * MAX_TOUCH_1D_OR_2D k s + 2 * button_num + 1)) &&& 0x0FFF : Nat) : ℚ))
      s.rawRescale

/-- The function `Trill::touchSize` (lines 440-451); `touch_num` is a byte. -/
def touchSize (k : Consts) (s : Trill) (touch_num : Nat) : FloatVal :=
  if s.mode_ ≠ k.CENTROID then some (-1)
  else if touch_num ≥ MAX_TOUCH_1D_OR_2D k s then some (-1)
  else fmul (some (word16 s (2 * touch_num + 2 * MAX_TOUCH_1D_OR_2D k s))) s.sizeRescale

/-- The function `Trill::touchHorizontalLocation` (lines 453-464); `touch_num` is a byte. -/
def touchHorizontalLocation (k : Consts) (s : Trill) (touch_num : Nat) : FloatVal :=
  if s.mode_ ≠ k.CENTROID ∨ (s.device_type_ ≠ SQUARE ∧ s.device_type_ ≠ HEX) then some (-1)
  else if touch_num ≥ MAX_TOUCH_1D_OR_2D k s then some (-1)
  else fmul (some (word16 s (2 * touch_num + 4 * MAX_TOUCH_1D_OR_2D k s))) s.posHRescale

/-- The function `Trill::touchHorizontalSize` (lines 466-477); `touch_num` is a byte. -/
def touchHorizontalSize (k : Consts) (s : Trill) (touch_num : Nat) : FloatVal :=
  if s.mode_ ≠ k.CENTROID ∨ (s.device_type_ ≠ SQUARE ∧ s.device_type_ ≠ HEX) then some (-1)
  else if touch_num ≥ MAX_TOUCH_1D_OR_2D k s then some (-1)
  else fmul (some (word16 s (2 * touch_num + 6 * MAX_TOUCH_1D_OR_2D k s))) s.sizeRescale

/-- The preprocessor definition `compoundTouch(METHOD, TOUCHES)` (lines 479-488); the
`unsigned int` counter `i` is converted to the byte parameter of `METHOD`. -/
def compoundTouch (METHOD : Nat → FloatVal) (TOUCHES : Nat) : FloatVal :=
  let numTouches := TOUCHES
  let avg := (List.range numTouches).foldl (fun avg i => fadd avg (METHOD (i % 256))) (some 0)
  if numTouches ≠ 0 then fdiv avg (some (numTouches : ℚ)) else avg

/-- The function `Trill::compoundTouchSize` (lines 500-503). -/
def compoundTouchSize (k : Consts) (s : Trill) : FloatVal :=
  compoundTouch (touchSize k s)
    (if is2D k s then min (numberOfTouches k s) (numberOfHorizontalTouches k s)
     else numberOfTouches k s)

/-- The number of bytes `readLocations` asks for, as a function of the device:
`kCentroidLength2D` for Square and Hex, `kCentroidLengthRing` for Ring,
`kCentroidLengthDefault` otherwise. -/
def centroidLength (k : Consts) (s : Trill) : Nat :=
  if s.device_type_ = RING then k.kCentroidLengthRing
  else if s.device_type_ = SQUARE ∨ s.device_type_ = HEX then k.kCentroidLength2D
  else k.kCentroidLengthDefault

/-- What the specification asks of the derived rescale factors: for the current
variant, found in the rescale table, and the current bit depth,
`positionScale = 1 / positionFullScale`, `secondaryPositionScale =
1 / secondaryPositionFullScale`, `sizeScale = 2 ^ (12 - bitDepth) / sizeFullScale`
and `rawScale = 1 / 2 ^ bitDepth`. -/
def rescaleMatches (s : Trill) : Prop :=
  ∃ e, rescaleAt s.device_type_ = some e ∧
    s.posRescale = fdiv (some 1) (some e.pos) ∧
    s.posHRescale = fdiv (some 1) (some e.posH) ∧
    s.sizeRescale = fdiv (some ((2 : ℚ) ^ ((12 : Int) - (s.numBits : Int)))) (some e.size) ∧
    s.rawRescale = some (1 / (2 : ℚ) ^ s.numBits)

/-- The test for the no-touch mark: the 16-bit slot at byte offset `j` is 0xFFFF, that
is, both of its bytes are 0xFF. -/
def isSentinel (buf : Nat → Nat) (j : Nat) : Bool :=
  decide (buf j = 0xFF ∧ buf (j + 1) = 0xFF)

/-- The touch count as the specification words it: the index of the first of the
`max` 16-bit slots starting at byte offset `off` that is 0xFFFF, or `max` when none
of them is. -/
def firstSentinel (buf : Nat → Nat) (off max : Nat) : Nat :=
  (List.range max).findIdx fun i => isSentinel buf (2 * i + off)

/-- The arithmetic mean of a list of `float`s, computed with the `float` operations:
the sum from 0, left to right, divided by the length; 0 for the empty list. -/
def fmean (l : List FloatVal) : FloatVal :=
  if l.length = 0 then some 0 else fdiv (l.foldl fadd (some 0)) (some (l.length : ℚ))

/-- The threshold byte as the specification words it: `threshold * 2 ^ bitDepth`
rounded to the nearest integer (a half goes up), then clamped to `[0, 255]`. -/
def noiseByteSpec (threshold : ℚ) (bitDepth : Nat) : Nat :=
  (max 0 (min 255 (round (threshold * 2 ^ bitDepth)))).toNat

/-! ## Commands as data -/

/-- The member functions that send a frame, with their arguments. -/
inductive Command where
  | identify
  | setMode (mode : Int)
  | setScanSettings (speed num_bits : Nat)
  | setPrescaler (prescaler : Nat)
  | setNoiseThreshold (threshold : ℚ)
  | setIDACValue (value : Nat)
  | setMinimumTouchSize (size : Nat)
  | setAutoScanInterval (interval : Nat)
  | updateBaseLine
  | prepareForDataRead

namespace Command

/-- Calling the member function a command names. -/
def run (k : Consts) : Command → Trill → Bus → Res
  | identify => Trill.identify k
  | setMode mode => Trill.setMode k mode
  | setScanSettings speed num_bits => Trill.setScanSettings k speed num_bits
  | setPrescaler prescaler => Trill.setPrescaler k prescaler
  | setNoiseThreshold threshold => Trill.setNoiseThreshold k threshold
  | setIDACValue value => Trill.setIDACValue k value
  | setMinimumTouchSize size => Trill.setMinimumTouchSize k size
  | setAutoScanInterval interval => Trill.setAutoScanInterval k interval
  | updateBaseLine => Trill.updateBaseLine k
  | prepareForDataRead => Trill.prepareForDataRead k

/-- The local `bytesToWrite` of the member function: the length of its frame. -/
def bytesToWrite : Command → Int
  | identify => 2
  | setMode _ => 3
  | setScanSettings _ _ => 4
  | setPrescaler _ => 3
  | setNoiseThreshold _ => 3
  | setIDACValue _ => 3
  | setMinimumTouchSize _ => 4
  | setAutoScanInterval _ => 4
  | updateBaseLine => 2
  | prepareForDataRead => 1

/-- The configuration commands: all but `identify` and `prepareForDataRead`. -/
def isConfig : Command → Bool
  | identify => false
  | prepareForDataRead => false
  | _ => true

/-- Whether the command is `setScanSettings`, which clears the flag before writing. -/
def isScanSettings : Command → Bool
  | setScanSettings _ _ => true
  | _ => false

end Command

/-! ## Example objects and buses -/

/-- A Bar in centroid mode, set up with 12 bits and prepared for reading. -/
def barPrepared : Trill where
  mode_ := 0
  device_type_ := BAR
  firmware_version_ := 2
  num_touches_ := 0
  dataBuffer := fun _ => 0
  preparedForDataRead_ := true
  numBits := 12
  posRescale := some (1 / 3200)
  posHRescale := none
  sizeRescale := some (1 / 4566)
  rawRescale := some (1 / 4096)
  rawData := fun _ => some 0

/-- A bus whose next write reports `w` bytes and whose next read delivers `bytes`. -/
def busWith (w : Int) (bytes : List Nat) : Bus where
  writeReplies := [w]
  readReplies := [some bytes]
  log := []

/-- A bus on which the identify write succeeds and both identity reads deliver
`bytes`. -/
def busIdentity (bytes : List Nat) : Bus where
  writeReplies := [2]
  readReplies := [some bytes, some bytes]
  log := []

/-- An object whose variant is `NONE` (as after a failed identity read) but whose mode
is centroid and whose frame buffer still holds bytes of an earlier read. -/
def noneStale : Trill where
  mode_ := 0
  device_type_ := -1
  firmware_version_ := 2
  num_touches_ := 2
  dataBuffer := fun _ => 1
  preparedForDataRead_ := true
  numBits := 12
  posRescale := some (1 / 3200)
  posHRescale := none
  sizeRescale := some (1 / 4566)
  rawRescale := some (1 / 4096)
  rawData := fun _ => some 0

/-- A Ring in centroid mode, set up with 12 bits, with a frame of bytes 0x12 0x34. -/
def ringPrepared : Trill where
  mode_ := 0
  device_type_ := RING
  firmware_version_ := 2
  num_touches_ := 0
  dataBuffer := fun i => if i % 2 = 0 then 0x12 else 0x34
  preparedForDataRead_ := true
  numBits := 12
  posRescale := some (1 / 3584)
  posHRescale := none
  sizeRescale := some (1 / 5000)
  rawRescale := some (1 / 4096)
  rawData := fun _ => some 0

/-- A Hex in centroid mode whose counter holds 3 vertical and 1 horizontal touches. -/
def hexTouched : Trill where
  mode_ := 0
  device_type_ := HEX
  firmware_version_ := 2
  num_touches_ := 0x13
  dataBuffer := fun _ => 1
  preparedForDataRead_ := true
  numBits := 12
  posRescale := some (1 / 1920)
  posHRescale := some (1 / 1664)
  sizeRescale := some (1 / 4000)
  rawRescale := some (1 / 4096)
  rawData := fun _ => some 0

end Trill

/-! ## Basic facts about the bus -/

namespace Bus

@[simp] theorem write_fst (b : Bus) (frame : List Nat) : (b.write frame).1 = b.nextWrite := by
  unfold write nextWrite
  cases b.writeReplies <;> rfl

@[simp] theorem write_log (b : Bus) (frame : List Nat) :
    (b.write frame).2.log = b.log ++ [BusOp.write frame] := by
  unfold write
  cases b.writeReplies <;> rfl

@[simp] theorem write_readReplies (b : Bus) (frame : List Nat) :
    (b.write frame).2.readReplies = b.readReplies := by
  unfold write
  cases b.writeReplies <;> rfl

@[simp] theorem usleep_log (b : Bus) (t : Nat) : (b.usleep t).log = b.log ++ [BusOp.usleep t] :=
  rfl

@[simp] theorem usleep_readReplies (b : Bus) (t : Nat) : (b.usleep t).readReplies = b.readReplies :=
  rfl

@[simp] theorem usleep_writeReplies (b : Bus) (t : Nat) :
    (b.usleep t).writeReplies = b.writeReplies :=
  rfl

@[simp] theorem read_log (b : Bus) (buf : Nat → Nat) (n : Nat) :
    (b.read buf n).2.2.log = b.log ++ [BusOp.read n] := by
  unfold read
  rcases b.readReplies with _ | ⟨_ | _, _⟩ <;> rfl

end Bus

namespace Bus

@[simp] theorem read_fst (b : Bus) (buf : Nat → Nat) (n : Nat) :
    (b.read buf n).1 = b.readRet 0 n := by
  unfold read readRet
  rcases b.readReplies with _ | ⟨_ | _, _⟩ <;> rfl

@[simp] theorem read_readRet (b : Bus) (buf : Nat → Nat) (n j m : Nat) :
    (b.read buf n).2.2.readRet j m = b.readRet (j + 1) m := by
  unfold read readRet
  rcases b.readReplies with _ | ⟨_ | _, _⟩ <;> simp

@[simp] theorem read_nextWrite (b : Bus) (buf : Nat → Nat) (n : Nat) :
    (b.read buf n).2.2.nextWrite = b.nextWrite := by
  unfold read nextWrite
  rcases b.readReplies with _ | ⟨_ | _, _⟩ <;> rfl

@[simp] theorem write_readRet (b : Bus) (frame : List Nat) (j m : Nat) :
    (b.write frame).2.readRet j m = b.readRet j m := by
  unfold readRet
  rw [write_readReplies]

@[simp] theorem usleep_readRet (b : Bus) (t j m : Nat) :
    (b.usleep t).readRet j m = b.readRet j m :=
  rfl

@[simp] theorem usleep_nextWrite (b : Bus) (t : Nat) : (b.usleep t).nextWrite = b.nextWrite :=
  rfl

end Bus

namespace Trill

/-! ## Scan settings -/

/-- The three clamping tests of `setScanSettings` compute `min speed 3` and
`max 9 (min num_bits 16)`. -/
theorem clamp_eq (speed num_bits : Nat) :
    (if speed > 3 then 3 else speed) = min speed 3 ∧
    (if (if num_bits < 9 then 9 else num_bits) > 16 then 16
      else (if num_bits < 9 then 9 else num_bits)) = max 9 (min num_bits 16) := by
  constructor
  · split <;> omega
  · split <;> split <;> omega

/-- C1: for every speed and bit depth, `setScanSettings` makes exactly one bus write,
of the 4-byte frame `[kOffsetCommand, kCommandScanSettings, min speed 3, clamp bits 9 16]`
(followed by the sleep when the write reported 4 bytes, and by nothing otherwise);
`setScanSettings(2, 10)` writes `[kOffsetCommand, kCommandScanSettings, 2, 10]`; and
when the write reports 4 bytes the call returns 0 and the stored bit depth is the
clamped value. -/
theorem setScanSettings_frame (k : Consts) (speed num_bits : Nat) (s : Trill) (b : Bus) :
    [k.kOffsetCommand, k.kCommandScanSettings, min speed 3, max 9 (min num_bits 16)].length = 4 ∧
    (setScanSettings k speed num_bits s b).bus.log =
      b.log ++ BusOp.write
          [k.kOffsetCommand, k.kCommandScanSettings, min speed 3, max 9 (min num_bits 16)]
        :: (if b.nextWrite = 4 then [BusOp.usleep k.commandSleepTime] else []) ∧
    (setScanSettings k 2 10 s b).bus.log =
      b.log ++ BusOp.write [k.kOffsetCommand, k.kCommandScanSettings, 0x02, 0x0A]
        :: (if b.nextWrite = 4 then [BusOp.usleep k.commandSleepTime] else []) ∧
    (b.nextWrite = 4 →
      (setScanSettings k speed num_bits s b).ret = 0 ∧
      (setScanSettings k speed num_bits s b).st.numBits = max 9 (min num_bits 16)) := by
  have hc := clamp_eq speed num_bits
  refine ⟨rfl, ?_, ?_, ?_⟩
  · unfold setScanSettings
    simp only [hc.1, hc.2, Bus.write_fst]
    by_cases h : b.nextWrite = 4 <;> simp [h, updateRescale]
  · unfold setScanSettings
    by_cases h : b.nextWrite = 4 <;> simp [h, updateRescale]
  · intro h
    unfold setScanSettings
    simp only [hc.1, hc.2, Bus.write_fst]
    simp [h, updateRescale]

/-- Witness for C1: a prepared Bar, `setScanSettings(7, 20)`, a write reporting 4. -/
theorem setScanSettings_frame_witness :
    (setScanSettings trillConsts 7 20 barPrepared (busWith 4 [])).bus.log =
      [BusOp.write [0, 2, 3, 16], BusOp.usleep 10000] ∧
    (setScanSettings trillConsts 7 20 barPrepared (busWith 4 [])).ret = 0 ∧
    (setScanSettings trillConsts 7 20 barPrepared (busWith 4 [])).st.numBits = 16 := by
  have h := setScanSettings_frame trillConsts 7 20 barPrepared (busWith 4 [])
  exact ⟨h.2.1, h.2.2.2 (by decide)⟩

/-! ## Failures of `identify` -/

/-- C2: what `identify` does in its two failure cases.  When the 2-byte write is
short the call returns -1 and leaves the object as it was, the device variant
included (it is not set to `NONE`); when the write succeeds and the second 4-byte
read does not return 4 bytes the call returns -1 and sets the variant to `NONE`. -/
theorem identify_failure (k : Consts) (s : Trill) (b : Bus) :
    (b.nextWrite ≠ 2 → (identify k s b).ret = -1 ∧ (identify k s b).st = s) ∧
    (b.nextWrite = 2 → b.readRet 1 4 ≠ 4 →
      (identify k s b).ret = -1 ∧ (identify k s b).st.device_type_ = k.NONE) := by
  constructor
  · intro h
    simp [identify, h]
  · intro h h4
    simp [identify, h, h4]

/-- A Bar that was identified before, and a bus on which the identify write is
short: `identify` fails and the object still says Bar. -/
theorem identify_failure_witness :
    (busWith 1 []).nextWrite ≠ 2 ∧
    (identify trillConsts barPrepared (busWith 1 [])).ret = -1 ∧
    (identify trillConsts barPrepared (busWith 1 [])).st.device_type_ = BAR ∧
    BAR ≠ trillConsts.NONE := by
  have h := (identify_failure trillConsts barPrepared (busWith 1 [])).1 (by decide)
  refine ⟨by decide, h.1, ?_, by decide⟩
  rw [h.2]
  rfl

/-! ## Short writes -/

/-- C3, as stated, fails: `setMode` on a prepared device with a write reporting 2 of
3 bytes returns nonzero, and the prepared-for-read flag is still true. -/
theorem short_write_flag_counterexample :
    (busWith 2 []).nextWrite ≠ (Command.setMode 0).bytesToWrite ∧
    ¬ (((Command.setMode 0).run trillConsts barPrepared (busWith 2 [])).ret ≠ 0 ∧
       ((Command.setMode 0).run trillConsts barPrepared
          (busWith 2 [])).st.preparedForDataRead_ = false) := by
  decide

/-- C3, amended: for every command that writes a frame and every starting state, a
bus write whose return value differs from the frame length makes the call return a
nonzero code, and the call does not set the prepared-for-read flag: `setScanSettings`
clears it, every other command leaves it as it was, so it is false afterwards whenever
it was false before. -/
theorem short_write_fails (k : Consts) (c : Command) (s : Trill) (b : Bus)
    (h : b.nextWrite ≠ c.bytesToWrite) :
    (c.run k s b).ret ≠ 0 ∧
    (c.run k s b).st.preparedForDataRead_ =
      (if c.isScanSettings then false else s.preparedForDataRead_) ∧
    (s.preparedForDataRead_ = false → (c.run k s b).st.preparedForDataRead_ = false) := by
  cases c <;>
    simp [Command.bytesToWrite] at h <;>
    simp [Command.run, Command.isScanSettings, identify, setMode, setScanSettings, setPrescaler,
      setNoiseThreshold, setIDACValue, setMinimumTouchSize, setAutoScanInterval, updateBaseLine,
      prepareForDataRead, h]

/-- Witness for C3: `setPrescaler(5)` with a write reporting 2 of 3 bytes. -/
theorem short_write_fails_witness :
    ((Command.setPrescaler 5).run trillConsts barPrepared (busWith 2 [])).ret ≠ 0 ∧
    ((Command.setPrescaler 5).run trillConsts barPrepared
        (busWith 2 [])).st.preparedForDataRead_ = true :=
  have h := short_write_fails trillConsts (Command.setPrescaler 5) barPrepared (busWith 2 [])
    (by decide)
  ⟨h.1, h.2.1⟩

/-! ## The bus calls of the two read operations -/

/-- The bus state with which `readI2C` and `readLocations` reach their `::read`. -/
theorem prepare_bus_log (k : Consts) (s : Trill) (b : Bus) :
    (prepareForDataRead k s b).bus.log =
      b.log ++ BusOp.write [k.kOffsetData]
        :: (if b.nextWrite = 1 then [BusOp.usleep k.commandSleepTime] else []) := by
  unfold prepareForDataRead
  by_cases h : b.nextWrite = 1 <;> simp [h]

/-- The object after `prepareForDataRead`: the flag is set when the write reported
1 byte, and nothing else changes. -/
theorem prepare_st (k : Consts) (s : Trill) (b : Bus) :
    (prepareForDataRead k s b).st =
      { s with preparedForDataRead_ := decide (b.nextWrite = 1) || s.preparedForDataRead_ } := by
  by_cases h : b.nextWrite = 1 <;> simp [prepareForDataRead, h]

/-- The object after the re-prepare statement of the read operations: only the flag
can have changed, and it is set exactly when it was set before or the write reported
1 byte. -/
theorem prepareIfNeeded_st (k : Consts) (s : Trill) (b : Bus) :
    (prepareIfNeeded k s b).1 =
      { s with preparedForDataRead_ := s.preparedForDataRead_ || decide (b.nextWrite = 1) } := by
  unfold prepareIfNeeded
  cases hp : s.preparedForDataRead_
  · simp [prepare_st, hp]
  · simp
    cases s
    simp_all

/-- The re-prepare statement of the read operations keeps the device code. -/
theorem prepareIfNeeded_device (k : Consts) (s : Trill) (b : Bus) :
    (prepareIfNeeded k s b).1.device_type_ = s.device_type_ := by
  rw [prepareIfNeeded_st]

/-- The bus after the re-prepare statement of the read operations. -/
theorem prepareIfNeeded_log (k : Consts) (s : Trill) (b : Bus) :
    (prepareIfNeeded k s b).2.log =
      b.log ++ (if s.preparedForDataRead_ then []
        else BusOp.write [k.kOffsetData]
          :: (if b.nextWrite = 1 then [BusOp.usleep k.commandSleepTime] else [])) := by
  unfold prepareIfNeeded
  cases hp : s.preparedForDataRead_ <;> simp [prepare_bus_log]

/-- The length `readLocations` computes for its read is `centroidLength`. -/
theorem bytesToRead_eq (k : Consts) (s : Trill) :
    (if s.device_type_ = RING then k.kCentroidLengthRing
      else if s.device_type_ = SQUARE ∨ s.device_type_ = HEX then k.kCentroidLength2D
      else k.kCentroidLengthDefault) = centroidLength k s :=
  rfl

/-- The calls `readLocations` makes on the bus of an identified device. -/
theorem readLocations_log (k : Consts) (s : Trill) (b : Bus) (hd : k.NONE ≠ s.device_type_) :
    (readLocations k s b).bus.log =
      b.log ++ (if s.preparedForDataRead_ then []
          else BusOp.write [k.kOffsetData]
            :: (if b.nextWrite = 1 then [BusOp.usleep k.commandSleepTime] else []))
        ++ [BusOp.read (centroidLength k s)] := by
  unfold readLocations
  simp only [hd, if_false, apply_ite Res.bus, ite_self, Bus.read_log, prepareIfNeeded_log,
    prepareIfNeeded_st, bytesToRead_eq]

/-- The decoding loop of `readI2C` run for `n` channels: the first `n` entries of
`rawData` are the decoded channels, nothing else changes. -/
theorem rawLoop_eq (s1 : Trill) (n : Nat) :
    (List.range n).foldl
        (fun t i => { t with rawData := Function.update t.rawData i (rawValue t i) }) s1 =
      { s1 with rawData := fun i => if i < n then rawValue s1 i else s1.rawData i } := by
  induction n with
  | zero => simp
  | succ n ih =>
    rw [List.range_succ, List.foldl_append, ih]
    simp only [List.foldl_cons, List.foldl_nil, rawValue]
    congr 1
    funext i
    by_cases hi : i = n
    · subst hi
      simp
    · have h1 : (i < n + 1) = (i < n) := by
        apply propext
        omega
      simp [Function.update, hi, h1]

/-- The object a `readI2C` leaves when its read returned `kRawLength` bytes: the
frame read is in `dataBuffer` and the channels below `getNumChannels` are decoded
from it; the flag is as the re-prepare statement left it. -/
theorem readI2C_success_st (k : Consts) (s : Trill) (b : Bus)
    (hd : k.NONE ≠ s.device_type_)
    (hr : (prepareIfNeeded k s b).2.readRet 0 k.kRawLength = (k.kRawLength : Int)) :
    (readI2C k s b).st =
      { s with
        preparedForDataRead_ := s.preparedForDataRead_ || decide (b.nextWrite = 1),
        dataBuffer :=
          ((prepareIfNeeded k s b).2.read s.dataBuffer k.kRawLength).2.1,
        rawData := fun i =>
          if i < getNumChannels k s then
            rawValue { s with
              dataBuffer := ((prepareIfNeeded k s b).2.read s.dataBuffer k.kRawLength).2.1 } i
          else s.rawData i } := by
  unfold readI2C
  simp only [hd, if_false, Bus.read_fst, hr, ne_eq, not_true_eq_false, rawLoop_eq,
    prepareIfNeeded_st]
  rfl

/-! ## The prepared-for-read flag across commands and reads -/

/-- C5: a Bar whose flag is not set, on a bus where the re-prepare write fails and
the read delivers a full frame: `readI2C` still reads `kRawLength` bytes, decodes
them and returns 0, with the prepared-for-read flag false throughout; the same
happens in `readLocations`. -/
theorem read_while_unprepared :
    (busWith (-1) (List.replicate 60 1)).nextWrite ≠ 1 ∧
    (readI2C trillConsts { barPrepared with preparedForDataRead_ := false }
        (busWith (-1) (List.replicate 60 1))).ret = 0 ∧
    (readI2C trillConsts { barPrepared with preparedForDataRead_ := false }
        (busWith (-1) (List.replicate 60 1))).bus.log =
      [BusOp.write [4], BusOp.read 60] ∧
    (readI2C trillConsts { barPrepared with preparedForDataRead_ := false }
        (busWith (-1) (List.replicate 60 1))).st.preparedForDataRead_ = false ∧
    (readI2C trillConsts { barPrepared with preparedForDataRead_ := false }
        (busWith (-1) (List.replicate 60 1))).st.rawData 0 = some (257 / 4096) ∧
    (readLocations trillConsts { barPrepared with preparedForDataRead_ := false }
        (busWith (-1) (List.replicate 20 1))).ret = 0 ∧
    (readLocations trillConsts { barPrepared with preparedForDataRead_ := false }
        (busWith (-1) (List.replicate 20 1))).bus.log =
      [BusOp.write [4], BusOp.read 20] ∧
    (readLocations trillConsts { barPrepared with preparedForDataRead_ := false }
        (busWith (-1) (List.replicate 20 1))).st.preparedForDataRead_ = false ∧
    (readLocations trillConsts { barPrepared with preparedForDataRead_ := false }
        (busWith (-1) (List.replicate 20 1))).st.num_touches_ = 5 := by
  refine ⟨by decide, by decide, by decide, ?_, ?_, by decide, by decide, by decide, by decide⟩
  · rw [readI2C_success_st _ _ _ (by decide) (by decide)]
    rfl
  · rw [readI2C_success_st _ _ _ (by decide) (by decide)]
    simp only [getNumChannels, barPrepared, BAR, trillConsts, rawValue, fmul, Bus.read, busWith,
      prepareIfNeeded, prepareForDataRead, Bus.write]
    have h : (257 &&& 4095 : ℕ) = 257 := by decide
    simp [h]
    norm_num

/-! ## Rescale factors -/

/-- Every entry of the rescale table has a nonzero position and size constant. -/
theorem rescaleAt_nonzero (d : Int) (e : trillRescaleFactors_t) (he : rescaleAt d = some e) :
    e.pos ≠ 0 ∧ e.size ≠ 0 := by
  unfold rescaleAt at he
  split at he
  · have hm : e ∈ trillRescaleFactors := List.get?_mem he
    simp only [trillRescaleFactors, List.mem_cons, List.mem_singleton, List.not_mem_nil,
      or_false] at hm
    rcases hm with h | h | h | h | h | h <;> subst h <;> norm_num
  · cases he

/-- The value of `1 << n` as a `float`, for a shift count below 31. -/
theorem ofInt_shl1 (n : Nat) (h : n < 31) : ofInt (shl1 n) = some ((2 : ℚ) ^ n) := by
  simp [ofInt, shl1, h]

/-- C6, as stated, fails.  First input: a Bar set up with 12 bits (its factors match)
on which `identify` succeeds with the answer Square: the variant changes and the
factors are not recomputed, `posRescale` is still 1/3200.  Second input:
`setScanSettings(0, 13)` on that Bar: the size factor is not 2^(12-13)/4566 (it is not
a defined number). -/
theorem rescale_stale_counterexample :
    rescaleMatches barPrepared ∧
    (identify trillConsts barPrepared (busIdentity [0, 2, 5, 0])).ret = 0 ∧
    (identify trillConsts barPrepared (busIdentity [0, 2, 5, 0])).st.device_type_ = SQUARE ∧
    ¬ rescaleMatches (identify trillConsts barPrepared (busIdentity [0, 2, 5, 0])).st ∧
    (setScanSettings trillConsts 0 13 barPrepared (busWith 4 [])).ret = 0 ∧
    ¬ rescaleMatches (setScanSettings trillConsts 0 13 barPrepared (busWith 4 [])).st := by
  refine ⟨⟨⟨3200, 0, 4566⟩, rfl, ?_, ?_, ?_, ?_⟩, by decide, by decide, ?_, by decide, ?_⟩
  · norm_num [barPrepared, fdiv]
  · norm_num [barPrepared, fdiv]
  · norm_num [barPrepared, fdiv]
  · norm_num [barPrepared]
  · rintro ⟨e, he, hpos, -⟩
    have hd : (identify trillConsts barPrepared (busIdentity [0, 2, 5, 0])).st.device_type_
        = 2 := by decide
    rw [hd] at he
    have hp : (identify trillConsts barPrepared (busIdentity [0, 2, 5, 0])).st.posRescale
        = some (1 / 3200) := rfl
    rw [hp] at hpos
    have he2 : e = ⟨1792, 1792, 2700⟩ := by
      have : rescaleAt 2 = some ⟨1792, 1792, 2700⟩ := rfl
      rw [this] at he
      exact (Option.some.inj he).symm
    subst he2
    norm_num [fdiv] at hpos
  · rintro ⟨e, he, -, -, hsize, -⟩
    have hs : (setScanSettings trillConsts 0 13 barPrepared (busWith 4 [])).st.sizeRescale
        = none := by
      simp [setScanSettings, updateRescale, busWith, shl1, ofInt, fdiv, Bus.nextWrite]
    rw [hs] at hsize
    have hne := (rescaleAt_nonzero _ e he).2
    simp [fdiv, hne] at hsize

/-- C6, amended: after every `setScanSettings` whose write reported 4 bytes, on a
device whose variant code is in the rescale table, the call returns 0, the variant is
unchanged, the bit depth is the clamped value, `positionScale =
1 / positionFullScale(variant)`, `secondaryPositionScale =
1 / secondaryPositionFullScale(variant)` (no finite number when that constant is 0),
`rawScale = 1 / 2 ^ bitDepth`, and, when the clamped bit depth is at most 12,
`sizeScale = 2 ^ (12 - bitDepth) / sizeFullScale(variant)`, so that all four factors
match; `identify` does not recompute the factors: they and the bit depth are after
the call what they were before it. -/
theorem setScanSettings_rescale (k : Consts) (speed num_bits : Nat) (s : Trill) (b : Bus)
    (e : trillRescaleFactors_t) (hw : b.nextWrite = 4) (he : rescaleAt s.device_type_ = some e) :
    (setScanSettings k speed num_bits s b).ret = 0 ∧
    (setScanSettings k speed num_bits s b).st.device_type_ = s.device_type_ ∧
    (setScanSettings k speed num_bits s b).st.numBits = max 9 (min num_bits 16) ∧
    (setScanSettings k speed num_bits s b).st.posRescale = some (1 / e.pos) ∧
    (setScanSettings k speed num_bits s b).st.posHRescale =
      (if e.posH = 0 then none else some (1 / e.posH)) ∧
    (setScanSettings k speed num_bits s b).st.rawRescale =
      some (1 / 2 ^ max 9 (min num_bits 16)) ∧
    (max 9 (min num_bits 16) ≤ 12 →
      (setScanSettings k speed num_bits s b).st.sizeRescale =
        some (2 ^ (12 - max 9 (min num_bits 16)) / e.size) ∧
      rescaleMatches (setScanSettings k speed num_bits s b).st) ∧
    (identify k s b).st.posRescale = s.posRescale ∧
    (identify k s b).st.posHRescale = s.posHRescale ∧
    (identify k s b).st.sizeRescale = s.sizeRescale ∧
    (identify k s b).st.rawRescale = s.rawRescale ∧
    (identify k s b).st.numBits = s.numBits := by
  have hc := (clamp_eq speed num_bits).2
  have hne := rescaleAt_nonzero _ e he
  have hlt : max 9 (min num_bits 16) < 31 := by omega
  have hst : (setScanSettings k speed num_bits s b).st =
      updateRescale { s with preparedForDataRead_ := false, numBits := max 9 (min num_bits 16) } := by
    unfold setScanSettings
    simp only [hc, Bus.write_fst, hw, ne_eq, not_true_eq_false, if_false]
  have hpos : (setScanSettings k speed num_bits s b).st.posRescale = some (1 / e.pos) := by
    rw [hst]
    simp [updateRescale, he, fdiv, hne.1]
  have hposH : (setScanSettings k speed num_bits s b).st.posHRescale =
      (if e.posH = 0 then none else some (1 / e.posH)) := by
    rw [hst]
    simp [updateRescale, he, fdiv]
  have hraw : (setScanSettings k speed num_bits s b).st.rawRescale =
      some (1 / 2 ^ max 9 (min num_bits 16)) := by
    rw [hst]
    simp [updateRescale, ofInt_shl1 _ hlt, fdiv]
  have hnb : (setScanSettings k speed num_bits s b).st.numBits = max 9 (min num_bits 16) := by
    rw [hst]
    rfl
  have hdev : (setScanSettings k speed num_bits s b).st.device_type_ = s.device_type_ := by
    rw [hst]
    rfl
  have hid : ∀ f : Trill → FloatVal, (∀ t : Trill, ∀ d v p buf,
      f { t with preparedForDataRead_ := p, dataBuffer := buf, device_type_ := d,
                 firmware_version_ := v } = f t) → f (identify k s b).st = f s := by
    intro f hf
    unfold identify
    simp only [Bus.write_fst, Bus.read_fst]
    split
    · rfl
    · split
      · exact hf s _ s.firmware_version_ _ _
      · exact hf s _ _ _ _
  refine ⟨?_, hdev, hnb, hpos, hposH, hraw, ?_, hid (fun t => t.posRescale) (fun _ _ _ _ _ => rfl),
    hid (fun t => t.posHRescale) (fun _ _ _ _ _ => rfl),
    hid (fun t => t.sizeRescale) (fun _ _ _ _ _ => rfl),
    hid (fun t => t.rawRescale) (fun _ _ _ _ _ => rfl), ?_⟩
  · unfold setScanSettings
    simp [hw]
  · intro h12
    have hsh : (12 + 4294967296 - max 9 (min num_bits 16)) % 4294967296
        = 12 - max 9 (min num_bits 16) := by omega
    have hsize : (setScanSettings k speed num_bits s b).st.sizeRescale =
        some (2 ^ (12 - max 9 (min num_bits 16)) / e.size) := by
      rw [hst]
      simp [updateRescale, he, hsh, ofInt_shl1 _ (by omega : 12 - max 9 (min num_bits 16) < 31),
        fdiv, hne.2]
    refine ⟨hsize, e, by rw [hdev]; exact he, ?_, ?_, ?_, ?_⟩
    · rw [hpos]
      simp [fdiv, hne.1]
    · rw [hposH]
      simp [fdiv]
    · rw [hsize, hnb]
      have hz : ((12 : Int) - ((max 9 (min num_bits 16) : ℕ) : Int))
          = ((12 - max 9 (min num_bits 16) : ℕ) : Int) := by omega
      rw [hz, zpow_natCast]
      simp [fdiv, hne.2]
    · rw [hraw, hnb]
  · unfold identify
    simp only [Bus.write_fst, Bus.read_fst]
    split
    · rfl
    · split <;> rfl

/-- Witness for C6: `setScanSettings(0, 10)` on the Bar, with a write reporting 4. -/
theorem setScanSettings_rescale_witness :
    (setScanSettings trillConsts 0 10 barPrepared (busWith 4 [])).st.posRescale
      = some (1 / 3200) ∧
    (setScanSettings trillConsts 0 10 barPrepared (busWith 4 [])).st.rawRescale
      = some (1 / 2 ^ 10) ∧
    (setScanSettings trillConsts 0 10 barPrepared (busWith 4 [])).st.sizeRescale
      = some (2 ^ 2 / 4566) := by
  have h := setScanSettings_rescale trillConsts 0 10 barPrepared (busWith 4 [])
    ⟨3200, 0, 4566⟩ (by decide) rfl
  exact ⟨h.2.2.2.1, h.2.2.2.2.2.1, (h.2.2.2.2.2.2.1 (by decide)).1⟩

/-! ## Touch counts -/

/-- When the low byte of a slot is a byte, the test for the no-touch mark says that the
big-endian 16-bit value of the slot is 0xFFFF. -/
theorem isSentinel_iff_word (buf : Nat → Nat) (j : Nat) (h1 : buf (j + 1) < 256) :
    isSentinel buf j = true ↔ buf j * 256 + buf (j + 1) = 0xFFFF := by
  unfold isSentinel
  rw [decide_eq_true_iff]
  constructor
  · rintro ⟨ha, hb⟩
    rw [ha, hb]
  · intro h
    constructor <;> omega

/-- What the search loop returns when it is given enough iterations: a slot index
between the start and `max`, with no 0xFFFF slot before it, and itself a 0xFFFF slot
unless it is `max`. -/
theorem scanLoop_spec (buf : Nat → Nat) (off max : Nat) :
    ∀ fuel locations, locations ≤ max → max ≤ locations + fuel →
      locations ≤ scanLoop buf off max fuel locations ∧
      scanLoop buf off max fuel locations ≤ max ∧
      (∀ i, locations ≤ i → i < scanLoop buf off max fuel locations →
        isSentinel buf (2 * i + off) = false) ∧
      (scanLoop buf off max fuel locations < max →
        isSentinel buf (2 * scanLoop buf off max fuel locations + off) = true) := by
  intro fuel
  induction fuel with
  | zero =>
    intro locations h1 h2
    simp only [scanLoop]
    exact ⟨le_refl _, h1, fun i hi hi2 => absurd hi2 (by omega), fun h => absurd h (by omega)⟩
  | succ fuel ih =>
    intro locations h1 h2
    unfold scanLoop
    by_cases hlt : locations < max
    · by_cases hs : buf (2 * locations + off) = 0xFF ∧ buf (2 * locations + off + 1) = 0xFF
      · simp only [hlt, if_true, hs, and_self]
        refine ⟨le_refl _, h1, fun i hi hi2 => ?_, fun _ => ?_⟩
        · omega
        · simp [isSentinel, hs]
      · simp only [hlt, if_true, hs, if_false]
        obtain ⟨ha, hb, hc, hd⟩ := ih (locations + 1) (by omega) (by omega)
        refine ⟨by omega, hb, fun i hi hi2 => ?_, hd⟩
        by_cases hil : i = locations
        · subst hil
          simp [isSentinel, hs]
        · exact hc i (by omega) hi2
    · rw [if_neg hlt]
      exact ⟨le_refl _, h1, fun i hi hi2 => absurd hi2 (by omega), fun h => absurd h hlt⟩

/-- The search loop of `readLocations`, run with `max` iterations from slot 0, finds
the first 0xFFFF slot of the specification. -/
theorem scanLoop_eq_firstSentinel (buf : Nat → Nat) (off max : Nat) :
    scanLoop buf off max max 0 = firstSentinel buf off max := by
  obtain ⟨-, hb, hc, hd⟩ := scanLoop_spec buf off max max 0 (Nat.zero_le _) (by omega)
  unfold firstSentinel
  symm
  by_cases hlt : scanLoop buf off max max 0 < max
  · have hlen : scanLoop buf off max max 0 < (List.range max).length := by simpa using hlt
    rw [List.findIdx_eq hlen]
    refine ⟨by simpa using hd hlt, fun j hj => ?_⟩
    simpa using hc j (Nat.zero_le _) hj
  · have heq : scanLoop buf off max max 0 = max := by omega
    rw [heq]
    have hall : ∀ x ∈ List.range max, (fun i => isSentinel buf (2 * i + off)) x = false := by
      intro x hx
      rw [List.mem_range] at hx
      exact hc x (Nat.zero_le _) (by omega)
    simpa using List.findIdx_eq_length_of_false hall

/-- The first 0xFFFF slot is never beyond `max`. -/
theorem firstSentinel_le (buf : Nat → Nat) (off max : Nat) : firstSentinel buf off max ≤ max := by
  unfold firstSentinel
  have h := @List.findIdx_le_length Nat (fun i => isSentinel buf (2 * i + off)) (List.range max)
  simpa using h

/-- Two counts below 16 packed into one byte are recovered by the mask and the shift. -/
theorem nibble_pack : ∀ v < 16, ∀ h < 16,
    (((v % 256) ||| (h <<< 4)) % 256) &&& 0x0F = v ∧
    (((v % 256) ||| (h <<< 4)) % 256) >>> 4 = h ∧
    (v % 256) &&& 0x0F = v := by
  decide

/-- When `readLocations` returns 0 the device is identified and the read returned the
number of bytes asked for. -/
theorem readLocations_ret_zero (k : Consts) (s : Trill) (b : Bus)
    (hr : (readLocations k s b).ret = 0) :
    k.NONE ≠ s.device_type_ ∧
    (prepareIfNeeded k s b).2.readRet 0 (centroidLength k s) = (centroidLength k s : Int) := by
  have hdev := prepareIfNeeded_device k s b
  unfold readLocations at hr
  simp only [hdev, bytesToRead_eq, Bus.read_fst] at hr
  by_cases hd : k.NONE = s.device_type_
  · simp [hd] at hr
  · refine ⟨hd, ?_⟩
    by_contra hne
    simp [hd, hne] at hr

/-- The object `readLocations` leaves when it returns 0: the frame read is in
`dataBuffer`, and `num_touches_` holds the vertical count, with the horizontal count
in bits 4 and up on a Square or Hex. -/
theorem readLocations_success_st (k : Consts) (s : Trill) (b : Bus)
    (hr : (readLocations k s b).ret = 0) :
    (readLocations k s b).st =
      { s with
        preparedForDataRead_ := s.preparedForDataRead_ || decide (b.nextWrite = 1),
        dataBuffer := ((prepareIfNeeded k s b).2.read s.dataBuffer (centroidLength k s)).2.1,
        num_touches_ :=
          if s.device_type_ = SQUARE ∨ s.device_type_ = HEX then
            ((firstSentinel
                ((prepareIfNeeded k s b).2.read s.dataBuffer (centroidLength k s)).2.1 0
                (MAX_TOUCH_1D_OR_2D k s) % 256) |||
              (firstSentinel
                ((prepareIfNeeded k s b).2.read s.dataBuffer (centroidLength k s)).2.1
                (4 * MAX_TOUCH_1D_OR_2D k s) (MAX_TOUCH_1D_OR_2D k s) <<< 4)) % 256
          else
            firstSentinel
              ((prepareIfNeeded k s b).2.read s.dataBuffer (centroidLength k s)).2.1 0
              (MAX_TOUCH_1D_OR_2D k s) % 256 } := by
  obtain ⟨hd, hn⟩ := readLocations_ret_zero k s b hr
  have hdev := prepareIfNeeded_device k s b
  have hbuf : (prepareIfNeeded k s b).1.dataBuffer = s.dataBuffer := by
    rw [prepareIfNeeded_st]
  unfold readLocations
  simp only [hd, if_false, hdev, hbuf, bytesToRead_eq, Bus.read_fst, hn, ne_eq,
    not_true_eq_false, scanLoop_eq_firstSentinel, MAX_TOUCH_1D_OR_2D]
  rw [prepareIfNeeded_st]
  by_cases h2 : s.device_type_ = SQUARE ∨ s.device_type_ = HEX
  · simp only [h2, if_true]
  · simp only [h2, if_false]

/-- Both touch counts after a `readLocations` that returned 0, in centroid mode, when
the maximum touch counts fit the 4-bit fields of the counter: the vertical count is
the first 0xFFFF slot from offset 0, the horizontal count the first 0xFFFF slot from
offset `4 * MAX_TOUCH_1D_OR_2D` on a Square or Hex and 0 on other devices. -/
theorem counts_after_read (k : Consts) (s : Trill) (b : Bus)
    (hmax : MAX_TOUCH_1D_OR_2D k s < 16)
    (hr : (readLocations k s b).ret = 0) (hm : s.mode_ = k.CENTROID) :
    (readLocations k s b).st.mode_ = k.CENTROID ∧
    (readLocations k s b).st.device_type_ = s.device_type_ ∧
    MAX_TOUCH_1D_OR_2D k (readLocations k s b).st = MAX_TOUCH_1D_OR_2D k s ∧
    numberOfTouches k (readLocations k s b).st =
      firstSentinel (readLocations k s b).st.dataBuffer 0 (MAX_TOUCH_1D_OR_2D k s) ∧
    numberOfHorizontalTouches k (readLocations k s b).st =
      (if s.device_type_ = SQUARE ∨ s.device_type_ = HEX then
        firstSentinel (readLocations k s b).st.dataBuffer (4 * MAX_TOUCH_1D_OR_2D k s)
          (MAX_TOUCH_1D_OR_2D k s)
       else 0) := by
  have hst := readLocations_success_st k s b hr
  have hv := firstSentinel_le
    ((prepareIfNeeded k s b).2.read s.dataBuffer (centroidLength k s)).2.1 0
    (MAX_TOUCH_1D_OR_2D k s)
  have hh := firstSentinel_le
    ((prepareIfNeeded k s b).2.read s.dataBuffer (centroidLength k s)).2.1
    (4 * MAX_TOUCH_1D_OR_2D k s) (MAX_TOUCH_1D_OR_2D k s)
  have hp := nibble_pack _ (lt_of_le_of_lt hv hmax) _ (lt_of_le_of_lt hh hmax)
  rw [hst]
  refine ⟨hm, rfl, rfl, ?_, ?_⟩
  · simp only [numberOfTouches, hm, ne_eq, not_true_eq_false, if_false]
    by_cases h2D : s.device_type_ = SQUARE ∨ s.device_type_ = HEX
    · simp only [h2D, if_true]
      exact hp.1
    · simp only [h2D, if_false]
      exact hp.2.2
  · simp only [numberOfHorizontalTouches, hm, ne_eq, not_true_eq_false, false_or]
    by_cases h2D : s.device_type_ = SQUARE ∨ s.device_type_ = HEX
    · have hnot : ¬ (¬ s.device_type_ = SQUARE ∧ ¬ s.device_type_ = HEX) := by
        rintro ⟨ha, hb⟩
        rcases h2D with h | h
        · exact ha h
        · exact hb h
      simp only [hnot, h2D, if_true, if_false]
      exact hp.2.1
    · have hyes : ¬ s.device_type_ = SQUARE ∧ ¬ s.device_type_ = HEX :=
        ⟨fun h => h2D (Or.inl h), fun h => h2D (Or.inr h)⟩
      rw [if_pos hyes, if_neg h2D]

/-- C7: after a `readLocations` that returned 0, in centroid mode, `numberOfTouches()`
is the index of the first 16-bit slot equal to 0xFFFF among the slots scanned from
byte offset 0 of the frame buffer, or the per-variant maximum touch count when none
of these slots is 0xFFFF; in particular on a Square whose slot at offset 0 is 0xFFFF
it is 0, whatever the other bytes are.  The maximum touch counts of the header are
taken to fit the 4-bit fields of the counter. -/
theorem numberOfTouches_eq_firstSentinel (k : Consts) (s : Trill) (b : Bus)
    (h1 : k.kMaxTouchNum1D < 16) (h2 : k.kMaxTouchNum2D < 16)
    (hr : (readLocations k s b).ret = 0) (hm : s.mode_ = k.CENTROID) :
    numberOfTouches k (readLocations k s b).st =
      firstSentinel (readLocations k s b).st.dataBuffer 0
        (MAX_TOUCH_1D_OR_2D k (readLocations k s b).st) ∧
    (s.device_type_ = SQUARE → isSentinel (readLocations k s b).st.dataBuffer 0 = true →
      numberOfTouches k (readLocations k s b).st = 0) := by
  have hmax : MAX_TOUCH_1D_OR_2D k s < 16 := by
    unfold MAX_TOUCH_1D_OR_2D
    split <;> assumption
  obtain ⟨-, -, hmx, hv, -⟩ := counts_after_read k s b hmax hr hm
  rw [hmx]
  refine ⟨hv, fun hsq h0 => ?_⟩
  rw [hv]
  have hle := firstSentinel_le (readLocations k s b).st.dataBuffer 0 (MAX_TOUCH_1D_OR_2D k s)
  by_cases hz : MAX_TOUCH_1D_OR_2D k s = 0
  · omega
  · unfold firstSentinel
    have hlen : 0 < (List.range (MAX_TOUCH_1D_OR_2D k s)).length := by
      simp
      omega
    rw [List.findIdx_eq hlen]
    refine ⟨by simpa using h0, fun j hj => absurd hj (Nat.not_lt_zero j)⟩

/-- Witness for C7: a Square in centroid mode reads a 32-byte frame starting with
0xFF 0xFF. -/
theorem numberOfTouches_eq_firstSentinel_witness :
    numberOfTouches trillConsts
      (readLocations trillConsts { barPrepared with device_type_ := SQUARE }
        (busWith 1 (255 :: 255 :: List.replicate 30 7))).st = 0 :=
  (numberOfTouches_eq_firstSentinel trillConsts { barPrepared with device_type_ := SQUARE }
    (busWith 1 (255 :: 255 :: List.replicate 30 7)) (by decide) (by decide) (by decide)
    (by decide)).2 (by decide) (by decide)

/-- C8: on a Square or Hex in centroid mode, after a `readLocations` that returned 0,
`numberOfHorizontalTouches()` is the index of the first 0xFFFF slot of the region that
starts at byte offset `4 * kMaxTouchNum2D` (or `kMaxTouchNum2D` when none of its
`kMaxTouchNum2D` slots is 0xFFFF), and `numberOfTouches()` is the index of the first
0xFFFF slot of the region at offset 0: both counts come back out of the one counter.
The maximum touch count of the header is taken to fit the 4-bit fields. -/
theorem horizontal_and_vertical_counts (k : Consts) (s : Trill) (b : Bus)
    (h2 : k.kMaxTouchNum2D < 16)
    (hr : (readLocations k s b).ret = 0) (hm : s.mode_ = k.CENTROID)
    (h2D : s.device_type_ = SQUARE ∨ s.device_type_ = HEX) :
    numberOfHorizontalTouches k (readLocations k s b).st =
      firstSentinel (readLocations k s b).st.dataBuffer (4 * k.kMaxTouchNum2D)
        k.kMaxTouchNum2D ∧
    numberOfTouches k (readLocations k s b).st =
      firstSentinel (readLocations k s b).st.dataBuffer 0 k.kMaxTouchNum2D := by
  have hmax : MAX_TOUCH_1D_OR_2D k s = k.kMaxTouchNum2D := by
    simp [MAX_TOUCH_1D_OR_2D, h2D]
  obtain ⟨-, -, -, hv, hh⟩ := counts_after_read k s b (by rw [hmax]; exact h2) hr hm
  rw [hmax] at hv hh
  rw [if_pos h2D] at hh
  exact ⟨hh, hv⟩

/-- Witness for C8: a Hex reads a frame with three vertical and one horizontal touch. -/
theorem horizontal_and_vertical_counts_witness :
    numberOfHorizontalTouches trillConsts
      (readLocations trillConsts { barPrepared with device_type_ := HEX }
        (busWith 1 (List.replicate 6 1 ++ [255, 255] ++ List.replicate 8 2 ++ [0, 9, 255, 255]
          ++ List.replicate 12 3))).st
      = firstSentinel
          (readLocations trillConsts { barPrepared with device_type_ := HEX }
            (busWith 1 (List.replicate 6 1 ++ [255, 255] ++ List.replicate 8 2
              ++ [0, 9, 255, 255] ++ List.replicate 12 3))).st.dataBuffer 16 4 ∧
    numberOfTouches trillConsts
      (readLocations trillConsts { barPrepared with device_type_ := HEX }
        (busWith 1 (List.replicate 6 1 ++ [255, 255] ++ List.replicate 8 2 ++ [0, 9, 255, 255]
          ++ List.replicate 12 3))).st
      = firstSentinel
          (readLocations trillConsts { barPrepared with device_type_ := HEX }
            (busWith 1 (List.replicate 6 1 ++ [255, 255] ++ List.replicate 8 2
              ++ [0, 9, 255, 255] ++ List.replicate 12 3))).st.dataBuffer 0 4 :=
  horizontal_and_vertical_counts trillConsts { barPrepared with device_type_ := HEX }
    (busWith 1 (List.replicate 6 1 ++ [255, 255] ++ List.replicate 8 2 ++ [0, 9, 255, 255]
      ++ List.replicate 12 3)) (by decide) (by decide) (by decide) (by decide)

/-! ## Touch accessors -/

/-- C9: `touchLocation`, `touchSize`, `touchHorizontalLocation` and
`touchHorizontalSize` return -1, whatever the frame buffer holds, for every index at or
above the per-variant maximum touch count (`kMaxTouchNum2D` on a Square or Hex,
`kMaxTouchNum1D` otherwise) and whenever the mode is not centroid; the two horizontal
accessors also return -1 on every variant that is neither Square nor Hex. -/
theorem accessors_sentinel (k : Consts) (s : Trill) (buf : Nat → Nat) (touch_num : Nat) :
    ((s.mode_ ≠ k.CENTROID ∨
        touch_num ≥ (if s.device_type_ = SQUARE ∨ s.device_type_ = HEX then k.kMaxTouchNum2D
          else k.kMaxTouchNum1D)) →
      touchLocation k { s with dataBuffer := buf } touch_num = some (-1) ∧
      touchSize k { s with dataBuffer := buf } touch_num = some (-1) ∧
      touchHorizontalLocation k { s with dataBuffer := buf } touch_num = some (-1) ∧
      touchHorizontalSize k { s with dataBuffer := buf } touch_num = some (-1)) ∧
    ((s.device_type_ ≠ SQUARE ∧ s.device_type_ ≠ HEX) →
      touchHorizontalLocation k { s with dataBuffer := buf } touch_num = some (-1) ∧
      touchHorizontalSize k { s with dataBuffer := buf } touch_num = some (-1)) := by
  constructor
  · rintro (hm | hi)
    · simp [touchLocation, touchSize, touchHorizontalLocation, touchHorizontalSize, hm]
    · have hi2 : touch_num ≥ MAX_TOUCH_1D_OR_2D k { s with dataBuffer := buf } := hi
      refine ⟨?_, ?_, ?_, ?_⟩
      · unfold touchLocation
        rw [if_pos hi2, ite_self]
      · unfold touchSize
        rw [if_pos hi2, ite_self]
      · unfold touchHorizontalLocation
        rw [if_pos hi2, ite_self]
      · unfold touchHorizontalSize
        rw [if_pos hi2, ite_self]
  · intro h
    have h2 : s.mode_ ≠ k.CENTROID ∨ (s.device_type_ ≠ SQUARE ∧ s.device_type_ ≠ HEX) := Or.inr h
    refine ⟨?_, ?_⟩
    · unfold touchHorizontalLocation
      exact if_pos h2
    · unfold touchHorizontalSize
      exact if_pos h2

/-- Witness for C9: index 5 on a Bar, index 4 on a Square, and the horizontal
accessors on a Bar. -/
theorem accessors_sentinel_witness :
    touchLocation trillConsts { barPrepared with dataBuffer := fun _ => 7 } 5 = some (-1) ∧
    touchSize trillConsts { barPrepared with dataBuffer := fun _ => 7 } 5 = some (-1) ∧
    touchHorizontalLocation trillConsts { barPrepared with dataBuffer := fun _ => 7 } 0
      = some (-1) ∧
    touchHorizontalSize trillConsts { barPrepared with dataBuffer := fun _ => 7 } 0
      = some (-1) :=
  have h := accessors_sentinel trillConsts barPrepared (fun _ => 7)
  ⟨((h 5).1 (Or.inr (by decide))).1, ((h 5).1 (Or.inr (by decide))).2.1,
    ((h 0).2 (by decide)).1, ((h 0).2 (by decide)).2⟩

/-! ## Compound location -/

/-- The averaging code `compoundTouch` computes the `float` mean of the values of
`METHOD` at the indices below the count, when the count fits a byte. -/
theorem compoundTouch_eq_fmean (METHOD : Nat → FloatVal) (n : Nat) (hn : n ≤ 256) :
    compoundTouch METHOD n = fmean ((List.range n).map METHOD) := by
  have hmap : (List.range n).map (fun i => METHOD (i % 256)) = (List.range n).map METHOD := by
    apply List.map_congr_left
    intro i hi
    rw [List.mem_range] at hi
    rw [Nat.mod_eq_of_lt (by omega)]
  have hfold : (List.range n).foldl (fun avg i => fadd avg (METHOD (i % 256))) (some 0)
      = ((List.range n).map METHOD).foldl fadd (some 0) := by
    rw [← hmap, List.foldl_map]
  unfold compoundTouch fmean
  simp only [hfold, List.length_map, List.length_range]
  by_cases h0 : n = 0
  · subst h0
    simp
  · simp [h0]

/-- The vertical touch count is at most 15. -/
theorem numberOfTouches_le (k : Consts) (s : Trill) : numberOfTouches k s ≤ 15 := by
  unfold numberOfTouches
  split
  · exact Nat.zero_le _
  · exact Nat.and_le_right

/-- C11: the number of touches `compoundTouchSize()` averages over is
`min(numberOfTouches(), numberOfHorizontalTouches())` on a Square or Hex (in centroid
mode, and in fact in every mode), hence at most both counts, and `numberOfTouches()` on
every other variant: `compoundTouchSize()` is the mean of `touchSize(i)` for `i` below
that number, and exactly 0 when that number is 0. -/
theorem compoundTouchSize_count (k : Consts) (s : Trill) :
    ((s.device_type_ = SQUARE ∨ s.device_type_ = HEX) →
      compoundTouchSize k s =
        fmean ((List.range (min (numberOfTouches k s) (numberOfHorizontalTouches k s))).map
          (touchSize k s)) ∧
      min (numberOfTouches k s) (numberOfHorizontalTouches k s) ≤ numberOfTouches k s ∧
      min (numberOfTouches k s) (numberOfHorizontalTouches k s)
        ≤ numberOfHorizontalTouches k s ∧
      (min (numberOfTouches k s) (numberOfHorizontalTouches k s) = 0 →
        compoundTouchSize k s = some 0)) ∧
    (¬ (s.device_type_ = SQUARE ∨ s.device_type_ = HEX) →
      compoundTouchSize k s = fmean ((List.range (numberOfTouches k s)).map (touchSize k s)) ∧
      (numberOfTouches k s = 0 → compoundTouchSize k s = some 0)) := by
  have hv := numberOfTouches_le k s
  constructor
  · intro h2D
    have hcount : (if is2D k s = true
        then min (numberOfTouches k s) (numberOfHorizontalTouches k s)
        else numberOfTouches k s)
        = min (numberOfTouches k s) (numberOfHorizontalTouches k s) := by
      by_cases hm : s.mode_ = k.CENTROID
      · have : is2D k s = true := by
          unfold is2D
          rw [if_neg (by simp [hm]), if_pos h2D]
        rw [if_pos this]
      · have h2 : is2D k s = false := by
          unfold is2D
          rw [if_pos (fun h => hm h.symm)]
        have hv0 : numberOfTouches k s = 0 := by
          unfold numberOfTouches
          rw [if_pos hm]
        rw [h2, hv0]
        simp
    have hmean : compoundTouchSize k s =
        fmean ((List.range (min (numberOfTouches k s) (numberOfHorizontalTouches k s))).map
          (touchSize k s)) := by
      unfold compoundTouchSize
      rw [hcount]
      exact compoundTouch_eq_fmean _ _ (le_trans (Nat.min_le_left _ _) (by omega))
    refine ⟨hmean, Nat.min_le_left _ _, Nat.min_le_right _ _, fun h0 => ?_⟩
    rw [hmean, h0]
    rfl
  · intro hn
    have h2 : is2D k s = false := by
      unfold is2D
      rw [if_neg hn]
      split <;> rfl
    have hmean : compoundTouchSize k s =
        fmean ((List.range (numberOfTouches k s)).map (touchSize k s)) := by
      unfold compoundTouchSize
      rw [h2, if_neg Bool.false_ne_true]
      exact compoundTouch_eq_fmean _ _ (by omega)
    refine ⟨hmean, fun h0 => ?_⟩
    rw [hmean, h0]
    rfl

/-- Witness for C11: a Hex with 3 vertical and 1 horizontal touches averages over 1. -/
theorem compoundTouchSize_count_witness :
    compoundTouchSize trillConsts hexTouched =
      fmean ((List.range (min (numberOfTouches trillConsts hexTouched)
        (numberOfHorizontalTouches trillConsts hexTouched))).map
          (touchSize trillConsts hexTouched)) ∧
    min (numberOfTouches trillConsts hexTouched)
      (numberOfHorizontalTouches trillConsts hexTouched) = 1 :=
  ⟨((compoundTouchSize_count trillConsts hexTouched).1 (Or.inr rfl)).1, by decide⟩

/-! ## Operations on an unidentified device -/

/-- C14, as stated, fails: on an object whose variant is `NONE`, in centroid mode,
`touchLocation(0)` and `touchSize(0)` decode the frame buffer (257/3200 and 257/4566
for a buffer of bytes 0x01) and do not return -1. -/
theorem none_device_counterexample :
    noneStale.device_type_ = trillConsts.NONE ∧
    touchLocation trillConsts noneStale 0 = some (257 / 3200) ∧
    touchLocation trillConsts noneStale 0 ≠ some (-1) ∧
    touchSize trillConsts noneStale 0 = some (257 / 4566) ∧
    touchSize trillConsts noneStale 0 ≠ some (-1) := by
  have hl : touchLocation trillConsts noneStale 0 = some (257 / 3200) := by
    simp [touchLocation, noneStale, trillConsts, MAX_TOUCH_1D_OR_2D, SQUARE, HEX, fmul, word16]
    norm_num
  have hs : touchSize trillConsts noneStale 0 = some (257 / 4566) := by
    simp [touchSize, noneStale, trillConsts, MAX_TOUCH_1D_OR_2D, SQUARE, HEX, fmul, word16]
    norm_num
  refine ⟨rfl, hl, ?_, hs, ?_⟩
  · rw [hl]
    norm_num
  · rw [hs]
    norm_num

/-- C14, amended: when the device variant is `NONE` (an enumerator different from
Square, Hex and Ring), `readI2C` and `readLocations` return a nonzero code without any
bus write or read and without changing any state field, and `touchHorizontalLocation`,
`touchHorizontalSize` and `getButtonValue` return -1; `touchLocation` and `touchSize`
do not look at the variant: they return -1 when the mode is not centroid or the index
is at least `kMaxTouchNum1D`, and otherwise the value decoded from the frame buffer. -/
theorem none_device_reads (k : Consts) (s : Trill) (b : Bus) (i : Nat)
    (hN : s.device_type_ = k.NONE) (h1 : k.NONE ≠ SQUARE) (h2 : k.NONE ≠ HEX)
    (h3 : k.NONE ≠ RING) :
    ((readI2C k s b).ret ≠ 0 ∧ (readI2C k s b).st = s ∧ (readI2C k s b).bus = b) ∧
    ((readLocations k s b).ret ≠ 0 ∧ (readLocations k s b).st = s ∧
      (readLocations k s b).bus = b) ∧
    touchHorizontalLocation k s i = some (-1) ∧
    touchHorizontalSize k s i = some (-1) ∧
    getButtonValue k s i = some (-1) ∧
    touchLocation k s i =
      (if s.mode_ ≠ k.CENTROID ∨ i ≥ k.kMaxTouchNum1D then some (-1)
       else fmul (some (word16 s (2 * i))) s.posRescale) ∧
    touchSize k s i =
      (if s.mode_ ≠ k.CENTROID ∨ i ≥ k.kMaxTouchNum1D then some (-1)
       else fmul (some (word16 s (2 * i + 2 * k.kMaxTouchNum1D))) s.sizeRescale) := by
  have hsq : s.device_type_ ≠ SQUARE := by rw [hN]; exact h1
  have hhx : s.device_type_ ≠ HEX := by rw [hN]; exact h2
  have hrg : s.device_type_ ≠ RING := by rw [hN]; exact h3
  have hmax : MAX_TOUCH_1D_OR_2D k s = k.kMaxTouchNum1D := by
    simp [MAX_TOUCH_1D_OR_2D, hsq, hhx]
  refine ⟨?_, ?_, ?_, ?_, ?_, ?_, ?_⟩
  · simp [readI2C, hN]
  · simp [readLocations, hN]
  · simp [touchHorizontalLocation, hsq, hhx]
  · simp [touchHorizontalSize, hsq, hhx]
  · simp [getButtonValue, hrg]
  · unfold touchLocation
    rw [hmax]
    by_cases hm : s.mode_ = k.CENTROID <;> simp [hm]
  · unfold touchSize
    rw [hmax]
    by_cases hm : s.mode_ = k.CENTROID <;> simp [hm]

/-- Witness for C14: the object with variant `NONE` and any bus. -/
theorem none_device_reads_witness :
    (readI2C trillConsts noneStale (busWith 1 [])).ret ≠ 0 ∧
    (readLocations trillConsts noneStale (busWith 1 [])).bus = busWith 1 [] ∧
    touchHorizontalLocation trillConsts noneStale 0 = some (-1) ∧
    getButtonValue trillConsts noneStale 0 = some (-1) :=
  have h := none_device_reads trillConsts noneStale (busWith 1 []) 0 rfl (by decide) (by decide)
    (by decide)
  ⟨h.1.1, h.2.1.2.2, h.2.2.1, h.2.2.2.2.1⟩

/-! ## The length of the centroid read -/

/-- The re-prepare statement of the read operations does not use up read replies. -/
theorem prepareIfNeeded_readRet (k : Consts) (s : Trill) (b : Bus) (j n : Nat) :
    (prepareIfNeeded k s b).2.readRet j n = b.readRet j n := by
  unfold prepareIfNeeded prepareForDataRead
  cases s.preparedForDataRead_
  · by_cases h : b.nextWrite = 1 <;> simp [h]
  · simp

/-- The outcome of `readLocations` on an identified device whose read does not return
the number of bytes asked for: a nonzero code and a cleared touch counter. -/
theorem readLocations_short_read (k : Consts) (s : Trill) (b : Bus)
    (hd : k.NONE ≠ s.device_type_)
    (hr : b.readRet 0 (centroidLength k s) ≠ (centroidLength k s : Int)) :
    (readLocations k s b).ret = 1 ∧ (readLocations k s b).st.num_touches_ = 0 := by
  have hdev := prepareIfNeeded_device k s b
  have hr2 : (prepareIfNeeded k s b).2.readRet 0 (centroidLength k s)
      ≠ (centroidLength k s : Int) := by
    rw [prepareIfNeeded_readRet]
    exact hr
  unfold readLocations
  simp only [hd, if_false, hdev, bytesToRead_eq, Bus.read_fst, ne_eq, hr2, not_false_eq_true,
    if_true, and_self]

/-- C15: on an identified device `readLocations` makes exactly one bus read, of the
variant's centroid length (`kCentroidLength2D` on a Square or Hex,
`kCentroidLengthRing` on a Ring, `kCentroidLengthDefault` on every other variant); if
that read returns any other byte count, `readLocations` returns nonzero and afterwards
`numberOfTouches()` and `numberOfHorizontalTouches()` are both 0. -/
theorem readLocations_length (k : Consts) (s : Trill) (b : Bus)
    (hd : k.NONE ≠ s.device_type_) :
    (readLocations k s b).bus.log =
      b.log ++ (if s.preparedForDataRead_ then []
          else BusOp.write [k.kOffsetData]
            :: (if b.nextWrite = 1 then [BusOp.usleep k.commandSleepTime] else []))
        ++ [BusOp.read (centroidLength k s)] ∧
    ((s.device_type_ = SQUARE ∨ s.device_type_ = HEX) →
      centroidLength k s = k.kCentroidLength2D) ∧
    (s.device_type_ = RING → centroidLength k s = k.kCentroidLengthRing) ∧
    (s.device_type_ ≠ SQUARE → s.device_type_ ≠ HEX → s.device_type_ ≠ RING →
      centroidLength k s = k.kCentroidLengthDefault) ∧
    (b.readRet 0 (centroidLength k s) ≠ (centroidLength k s : Int) →
      (readLocations k s b).ret ≠ 0 ∧
      numberOfTouches k (readLocations k s b).st = 0 ∧
      numberOfHorizontalTouches k (readLocations k s b).st = 0) := by
  refine ⟨readLocations_log k s b hd, ?_, ?_, ?_, ?_⟩
  · intro h2D
    have hnr : s.device_type_ ≠ RING := by
      rcases h2D with h | h <;> rw [h] <;> decide
    simp [centroidLength, hnr, h2D]
  · intro hr
    simp [centroidLength, hr]
  · intro h1 h2 h3
    simp [centroidLength, h1, h2, h3]
  · intro hr
    obtain ⟨hret, hnum⟩ := readLocations_short_read k s b hd hr
    refine ⟨by rw [hret]; decide, ?_, ?_⟩
    · unfold numberOfTouches
      rw [hnum]
      split <;> rfl
    · unfold numberOfHorizontalTouches
      rw [hnum]
      split <;> rfl

/-- Witness for C15: a Ring asks for 24 bytes; the bus delivers 20, and the counts
are 0 afterwards. -/
theorem readLocations_length_witness :
    (readLocations trillConsts ringPrepared (busWith 1 (List.replicate 20 7))).bus.log
      = [BusOp.read 24] ∧
    (readLocations trillConsts ringPrepared (busWith 1 (List.replicate 20 7))).ret ≠ 0 ∧
    numberOfTouches trillConsts
      (readLocations trillConsts ringPrepared (busWith 1 (List.replicate 20 7))).st = 0 :=
  have h := readLocations_length trillConsts ringPrepared (busWith 1 (List.replicate 20 7))
    (by decide)
  ⟨h.1, (h.2.2.2.2 (by decide)).1, (h.2.2.2.2 (by decide)).2.1⟩

/-! ## Button values -/

/-- A value masked with 0x0FFF is at most 4095, and shifting left by 8 multiplies by
256. -/
theorem masked12 (hi lo : Nat) :
    ((hi <<< 8) + lo) &&& 0x0FFF = (hi * 256 + lo) &&& 0x0FFF ∧
    (hi * 256 + lo) &&& 0x0FFF ≤ 4095 := by
  refine ⟨?_, Nat.and_le_right⟩
  rw [Nat.shiftLeft_eq]

/-- C16: `getButtonValue(i)` returns -1 unless the mode is centroid, the variant is
Ring and `i` is 0 or 1; in that case it returns the big-endian 16-bit value at byte
offset `4 * kMaxTouchNum1D + 2 * i` of the frame buffer, masked to 12 bits and
multiplied by `rawScale`, which for a `rawScale` that is a non-negative number lies in
`[0, 4095 * rawScale]`. -/
theorem getButtonValue_spec (k : Consts) (s : Trill) (i : Nat) :
    (¬ (s.mode_ = k.CENTROID ∧ s.device_type_ = RING ∧ i ≤ 1) →
      getButtonValue k s i = some (-1)) ∧
    (s.mode_ = k.CENTROID → s.device_type_ = RING → i ≤ 1 →
      getButtonValue k s i =
        fmul (some (((s.dataBuffer (4 * k.kMaxTouchNum1D + 2 * i) * 256
          + s.dataBuffer (4 * k.kMaxTouchNum1D + 2 * i + 1)) &&& 0x0FFF : Nat) : ℚ))
          s.rawRescale ∧
      ∀ r : ℚ, s.rawRescale = some r → 0 ≤ r →
        ∃ v : ℚ, getButtonValue k s i = some v ∧ 0 ≤ v ∧ v ≤ 4095 * r) := by
  constructor
  · intro h
    unfold getButtonValue
    by_cases hm : s.mode_ = k.CENTROID
    · by_cases hi : i ≤ 1
      · have hr : s.device_type_ ≠ RING := fun hr => h ⟨hm, hr, hi⟩
        rw [if_neg (by simp [hm]), if_neg (by omega), if_pos hr]
      · rw [if_neg (by simp [hm]), if_pos (by omega)]
    · rw [if_pos hm]
  · intro hm hr hi
    have hmax : MAX_TOUCH_1D_OR_2D k s = k.kMaxTouchNum1D := by
      have h1 : s.device_type_ ≠ SQUARE := by rw [hr]; decide
      have h2 : s.device_type_ ≠ HEX := by rw [hr]; decide
      simp [MAX_TOUCH_1D_OR_2D, h1, h2]
    have hval : getButtonValue k s i =
        fmul (some (((s.dataBuffer (4 * k.kMaxTouchNum1D + 2 * i) * 256
          + s.dataBuffer (4 * k.kMaxTouchNum1D + 2 * i + 1)) &&& 0x0FFF : Nat) : ℚ))
          s.rawRescale := by
      unfold getButtonValue
      rw [if_neg (by simp [hm]), if_neg (by omega), if_neg (by simp [hr]), hmax,
        (masked12 _ _).1]
    refine ⟨hval, fun r hrr h0 => ?_⟩
    rw [hval, hrr]
    refine ⟨_, rfl, ?_, ?_⟩
    · exact mul_nonneg (Nat.cast_nonneg _) h0
    · apply mul_le_mul_of_nonneg_right _ h0
      have h := (masked12 (s.dataBuffer (4 * k.kMaxTouchNum1D + 2 * i))
        (s.dataBuffer (4 * k.kMaxTouchNum1D + 2 * i + 1))).2
      exact_mod_cast h

/-- Witness for C16: button 1 of the Ring, whose frame holds 0x12 0x34 at offset 22. -/
theorem getButtonValue_spec_witness :
    getButtonValue trillConsts ringPrepared 1 =
      fmul (some (((ringPrepared.dataBuffer 22 * 256 + ringPrepared.dataBuffer 23)
        &&& 0x0FFF : Nat) : ℚ)) (some (1 / 4096)) ∧
    ∃ v : ℚ, getButtonValue trillConsts ringPrepared 1 = some v ∧ 0 ≤ v ∧
      v ≤ 4095 * (1 / 4096) :=
  have h := (getButtonValue_spec trillConsts ringPrepared 1).2 rfl rfl (by decide)
  ⟨h.1, h.2 (1 / 4096) rfl (by norm_num)⟩

/-! ## Successful identification -/

/-- A read whose scripted reply delivers the bytes `bytes`: the count returned, the
buffer left and the replies still to come. -/
theorem read_some (b : Bus) (buf : Nat → Nat) (n : Nat) (bytes : List Nat)
    (rest : List (Option (List Nat))) (h : b.readReplies = some bytes :: rest) :
    (b.read buf n).1 = ((bytes.take n).length : Int) ∧
    (b.read buf n).2.1 =
      (fun i => if i < (bytes.take n).length then (bytes.take n).getD i 0 % 256 else buf i) ∧
    (b.read buf n).2.2.readReplies = rest := by
  unfold Bus.read
  rw [h]
  exact ⟨rfl, rfl, rfl⟩

/-- A read uses up one scripted reply, whatever it is. -/
theorem read_rest (b : Bus) (buf : Nat → Nat) (n : Nat) (r : Option (List Nat))
    (rest : List (Option (List Nat))) (h : b.readReplies = r :: rest) :
    (b.read buf n).2.2.readReplies = rest := by
  unfold Bus.read
  rw [h]
  cases r <;> rfl

/-- The outcome of `identify` when the write succeeds and the second read delivers at
least 4 bytes: success, with the variant and the firmware version taken from bytes 1
and 2 of the second read. -/
theorem identify_second_read (k : Consts) (s : Trill) (b : Bus) (r1 : Option (List Nat))
    (x0 x1 x2 x3 : Nat) (tl : List Nat) (rest : List (Option (List Nat)))
    (hw : b.nextWrite = 2)
    (hr : b.readReplies = r1 :: some (x0 :: x1 :: x2 :: x3 :: tl) :: rest) :
    (identify k s b).ret = 0 ∧
    (identify k s b).st.device_type_ = ((x1 % 256 : Nat) : Int) ∧
    (identify k s b).st.firmware_version_ = x2 % 256 := by
  have hb1 : ((b.write [k.kOffsetCommand, k.kCommandIdentify]).2.usleep
      k.commandSleepTime).readReplies
      = r1 :: some (x0 :: x1 :: x2 :: x3 :: tl) :: rest := by
    rw [Bus.usleep_readReplies, Bus.write_readReplies, hr]
  have h2 := read_some _ (((b.write [k.kOffsetCommand, k.kCommandIdentify]).2.usleep
      k.commandSleepTime).read s.dataBuffer 4).2.1 4 _ _
    (read_rest _ s.dataBuffer 4 _ _ hb1)
  have hcount : ((x0 :: x1 :: x2 :: x3 :: tl).take 4).length = 4 := by simp
  have hret : (identify k s b).ret = 0 := by
    unfold identify
    simp only [Bus.write_fst, hw, ne_eq, not_true_eq_false, if_false, h2.1, hcount]
    rfl
  have hdev : (identify k s b).st.device_type_ = ((x1 % 256 : Nat) : Int) := by
    unfold identify
    simp only [Bus.write_fst, hw, ne_eq, not_true_eq_false, if_false, h2.1, hcount, h2.2.1]
    simp
  have hfw : (identify k s b).st.firmware_version_ = x2 % 256 := by
    unfold identify
    simp only [Bus.write_fst, hw, ne_eq, not_true_eq_false, if_false, h2.1, hcount, h2.2.1]
    simp
  exact ⟨hret, hdev, hfw⟩

/-- C17: on every bus on which the 2-byte identify write succeeds and the second
4-byte read returns the 4 bytes `x0 x1 x2 x3`, `identify()` returns 0, sets the variant
to the code `x1` and the firmware version to `x2`: both come from the second read,
whatever the first, discarded read returned (`r1` is arbitrary, an error included); in
particular the response `[_, 0x02, 0x05, _]` gives variant Square and firmware 5. -/
theorem identify_success (k : Consts) (s : Trill) (b : Bus) (r1 : Option (List Nat))
    (x0 x1 x2 x3 : Nat) (tl : List Nat) (rest : List (Option (List Nat)))
    (hw : b.nextWrite = 2)
    (hr : b.readReplies = r1 :: some (x0 :: x1 :: x2 :: x3 :: tl) :: rest) :
    (identify k s b).ret = 0 ∧
    (identify k s b).st.device_type_ = ((x1 % 256 : Nat) : Int) ∧
    (identify k s b).st.firmware_version_ = x2 % 256 ∧
    (x1 = 0x02 → x2 = 0x05 →
      (identify k s b).st.device_type_ = SQUARE ∧
      (identify k s b).st.firmware_version_ = 5) := by
  obtain ⟨hret, hdev, hfw⟩ := identify_second_read k s b r1 x0 x1 x2 x3 tl rest hw hr
  refine ⟨hret, hdev, hfw, fun h1 h5 => ?_⟩
  rw [hdev, hfw, h1, h5]
  exact ⟨rfl, rfl⟩

/-- Witness for C17: the first read fails, the second delivers `[9, 2, 5, 7]`. -/
theorem identify_success_witness :
    (identify trillConsts barPrepared
      { writeReplies := [2], readReplies := [none, some [9, 2, 5, 7]], log := [] }).ret = 0 ∧
    (identify trillConsts barPrepared
      { writeReplies := [2], readReplies := [none, some [9, 2, 5, 7]],
        log := [] }).st.device_type_ = SQUARE ∧
    (identify trillConsts barPrepared
      { writeReplies := [2], readReplies := [none, some [9, 2, 5, 7]],
        log := [] }).st.firmware_version_ = 5 :=
  have h := identify_success trillConsts barPrepared
    { writeReplies := [2], readReplies := [none, some [9, 2, 5, 7]], log := [] }
    none 9 2 5 7 [] [] rfl rfl
  ⟨h.1, (h.2.2.2 rfl rfl).1, (h.2.2.2 rfl rfl).2⟩

/-! ## Short writes of configuration commands -/

/-- C18: when the bus write of a configuration command (`setMode`, `setScanSettings`,
`setPrescaler`, `setNoiseThreshold`, `setIDACValue`, `setMinimumTouchSize`,
`setAutoScanInterval`, `updateBaseLine`) returns a count different from the frame
length, the command returns nonzero, its only bus call is that one write of a frame of
the command's length (no retry, no sleep), and the variant, the firmware version, the
operating mode, the bit depth and the four rescale factors are what they were before
the call. -/
theorem config_short_write_state (k : Consts) (c : Command) (s : Trill) (b : Bus)
    (hc : c.isConfig = true) (h : b.nextWrite ≠ c.bytesToWrite) :
    (c.run k s b).ret ≠ 0 ∧
    (∃ frame : List Nat, (frame.length : Int) = c.bytesToWrite ∧
      (c.run k s b).bus.log = b.log ++ [BusOp.write frame]) ∧
    (c.run k s b).st.device_type_ = s.device_type_ ∧
    (c.run k s b).st.firmware_version_ = s.firmware_version_ ∧
    (c.run k s b).st.mode_ = s.mode_ ∧
    (c.run k s b).st.numBits = s.numBits ∧
    (c.run k s b).st.posRescale = s.posRescale ∧
    (c.run k s b).st.posHRescale = s.posHRescale ∧
    (c.run k s b).st.sizeRescale = s.sizeRescale ∧
    (c.run k s b).st.rawRescale = s.rawRescale := by
  cases c <;> simp [Command.isConfig] at hc <;>
    simp only [Command.bytesToWrite] at h <;>
    simp only [Command.run, Command.bytesToWrite, setMode, setScanSettings, setPrescaler,
      setNoiseThreshold, setIDACValue, setMinimumTouchSize, setAutoScanInterval,
      updateBaseLine, Bus.write_fst, ne_eq, h, not_false_eq_true, if_true, Bus.write_log,
      and_true, true_and] <;>
    refine ⟨by decide, _, ?_, rfl⟩ <;> rfl

/-- Witness for C18: `setScanSettings(1, 10)` with a write reporting 3 of 4 bytes. -/
theorem config_short_write_state_witness :
    ((Command.setScanSettings 1 10).run trillConsts barPrepared (busWith 3 [])).ret ≠ 0 ∧
    ((Command.setScanSettings 1 10).run trillConsts barPrepared (busWith 3 [])).st.numBits
      = 12 ∧
    ((Command.setScanSettings 1 10).run trillConsts barPrepared (busWith 3 [])).st.rawRescale
      = some (1 / 4096) :=
  have h := config_short_write_state trillConsts (Command.setScanSettings 1 10) barPrepared
    (busWith 3 []) rfl (by decide)
  ⟨h.1, h.2.2.2.2.2.1, h.2.2.2.2.2.2.2.2.2⟩

/-! ## Raw channel values -/

/-- When `readI2C` returns 0 the device is identified and the read returned
`kRawLength` bytes. -/
theorem readI2C_ret_zero (k : Consts) (s : Trill) (b : Bus) (hr : (readI2C k s b).ret = 0) :
    k.NONE ≠ s.device_type_ ∧
    (prepareIfNeeded k s b).2.readRet 0 k.kRawLength = (k.kRawLength : Int) := by
  unfold readI2C at hr
  simp only [Bus.read_fst] at hr
  by_cases hd : k.NONE = s.device_type_
  · simp [hd] at hr
  · refine ⟨hd, ?_⟩
    by_contra hne
    simp [hd, hne] at hr

/-- C12: a `setScanSettings` whose write reported 4 bytes stores a bit depth `b` in
9..16 and the raw factor `rawScale = 1 / 2 ^ b`; and on every object `t` that holds
this factor, for every frame the bus delivers, each value that a `readI2C` returning 0
stores for a channel `i < getNumChannels()` is the big-endian 16-bit value of the
bytes `2i`, `2i+1` of the frame buffer, masked to 12 bits, divided by `2 ^ b`, a number
in `[0, 4095 / 2 ^ b]`. -/
theorem raw_values_scaled (k : Consts) (speed num_bits : Nat) (s t : Trill) (b b2 : Bus)
    (hw : b.nextWrite = 4)
    (ht : t.rawRescale = (setScanSettings k speed num_bits s b).st.rawRescale)
    (hr : (readI2C k t b2).ret = 0) :
    (9 ≤ (setScanSettings k speed num_bits s b).st.numBits ∧
      (setScanSettings k speed num_bits s b).st.numBits ≤ 16) ∧
    (setScanSettings k speed num_bits s b).st.rawRescale =
      some (1 / 2 ^ (setScanSettings k speed num_bits s b).st.numBits) ∧
    ∀ i, i < getNumChannels k t →
      (readI2C k t b2).st.rawData i =
        some (((((readI2C k t b2).st.dataBuffer (2 * i) * 256
            + (readI2C k t b2).st.dataBuffer (2 * i + 1)) &&& 0x0FFF : Nat) : ℚ)
          / 2 ^ (setScanSettings k speed num_bits s b).st.numBits) ∧
      (0 : ℚ) ≤ ((((readI2C k t b2).st.dataBuffer (2 * i) * 256
            + (readI2C k t b2).st.dataBuffer (2 * i + 1)) &&& 0x0FFF : Nat) : ℚ)
          / 2 ^ (setScanSettings k speed num_bits s b).st.numBits ∧
      ((((readI2C k t b2).st.dataBuffer (2 * i) * 256
            + (readI2C k t b2).st.dataBuffer (2 * i + 1)) &&& 0x0FFF : Nat) : ℚ)
          / 2 ^ (setScanSettings k speed num_bits s b).st.numBits
        ≤ 4095 / 2 ^ (setScanSettings k speed num_bits s b).st.numBits := by
  have hc := (clamp_eq speed num_bits).2
  have hst : (setScanSettings k speed num_bits s b).st =
      updateRescale { s with preparedForDataRead_ := false, numBits := max 9 (min num_bits 16) } := by
    unfold setScanSettings
    simp only [hc, Bus.write_fst, hw, ne_eq, not_true_eq_false, if_false]
  have hnb : (setScanSettings k speed num_bits s b).st.numBits = max 9 (min num_bits 16) := by
    rw [hst]
    rfl
  have hraw : (setScanSettings k speed num_bits s b).st.rawRescale =
      some (1 / 2 ^ max 9 (min num_bits 16)) := by
    rw [hst]
    simp [updateRescale, ofInt_shl1 _ (by omega : max 9 (min num_bits 16) < 31), fdiv]
  rw [hnb]
  rw [hraw] at ht
  refine ⟨⟨by omega, by omega⟩, hraw, fun i hi => ?_⟩
  obtain ⟨hd, hrr⟩ := readI2C_ret_zero k t b2 hr
  have hpos : (0 : ℚ) < 2 ^ max 9 (min num_bits 16) := by positivity
  rw [readI2C_success_st k t b2 hd hrr]
  simp only [if_pos hi, rawValue, ht, fmul, (masked12 _ _).1]
  refine ⟨?_, ?_, ?_⟩
  · congr 1
    rw [mul_one_div]
  · exact div_nonneg (Nat.cast_nonneg _) (le_of_lt hpos)
  · apply div_le_div_of_nonneg_right _ (le_of_lt hpos)
    have h := (masked12
      (((prepareIfNeeded k t b2).2.read t.dataBuffer k.kRawLength).2.1 (2 * i))
      (((prepareIfNeeded k t b2).2.read t.dataBuffer k.kRawLength).2.1 (2 * i + 1))).2
    exact_mod_cast h

/-- Witness for C12: `setScanSettings(0, 10)` on the Bar, then a `readI2C` of a frame
of bytes 0x01: channel 3 holds 257 / 2 ^ 10. -/
theorem raw_values_scaled_witness :
    (setScanSettings trillConsts 0 10 barPrepared (busWith 4 [])).st.rawRescale
      = some (1 / 2 ^ (setScanSettings trillConsts 0 10 barPrepared (busWith 4 [])).st.numBits) ∧
    (readI2C trillConsts (setScanSettings trillConsts 0 10 barPrepared (busWith 4 [])).st
        (busWith 1 (List.replicate 60 1))).st.rawData 3 =
      some (((((readI2C trillConsts
            (setScanSettings trillConsts 0 10 barPrepared (busWith 4 [])).st
            (busWith 1 (List.replicate 60 1))).st.dataBuffer (2 * 3) * 256
          + (readI2C trillConsts
            (setScanSettings trillConsts 0 10 barPrepared (busWith 4 [])).st
            (busWith 1 (List.replicate 60 1))).st.dataBuffer (2 * 3 + 1)) &&& 0x0FFF : Nat) : ℚ)
        / 2 ^ (setScanSettings trillConsts 0 10 barPrepared (busWith 4 [])).st.numBits) :=
  have h := raw_values_scaled trillConsts 0 10 barPrepared
    (setScanSettings trillConsts 0 10 barPrepared (busWith 4 [])).st (busWith 4 [])
    (busWith 1 (List.replicate 60 1)) (by decide) rfl (by decide)
  ⟨h.2.1, (h.2.2 3 (by decide)).1⟩

/-! ## The noise threshold byte -/

/-- The `char` conversion of a non-negative number is its floor, kept as a byte. -/
theorem toChar_of_nonneg (y : ℚ) (h : 0 ≤ y) : toChar (some y) = (⌊y⌋ % 256).toNat := by
  show ((y.num.tdiv (y.den : Int)) % 256).toNat = (⌊y⌋ % 256).toNat
  rw [Rat.floor_def, Int.tdiv_eq_ediv (Rat.num_nonneg.mpr h) (Int.natCast_nonneg _)]

/-- The byte computed by `setNoiseThreshold` (clamp, add 0.5, truncate) is the byte of
the specification (round, clamp), and it is at most 255, whenever `1 << numBits` is
defined. -/
theorem thByte_eq_spec (threshold : ℚ) (numBits : Nat) (h : numBits < 31) :
    thByte threshold numBits = noiseByteSpec threshold numBits ∧
    noiseByteSpec threshold numBits ≤ 255 := by
  have hb : noiseByteSpec threshold numBits ≤ 255 := by
    unfold noiseByteSpec
    omega
  refine ⟨?_, hb⟩
  unfold thByte noiseByteSpec
  rw [ofInt_shl1 _ h, round_eq]
  simp only [fmul]
  generalize threshold * 2 ^ numBits = x
  by_cases h1 : 255 < x
  · have hg : fgt (some x) 255 = true := by simp [fgt, h1]
    have hl : flt (some (255 : ℚ)) 0 = false := by simp [flt]
    simp only [hg, if_true, hl, Bool.false_eq_true, if_false, fadd]
    rw [toChar_of_nonneg _ (by norm_num)]
    have hf : ⌊(255 : ℚ) + 1 / 2⌋ = 255 := by
      rw [Int.floor_eq_iff]
      norm_num
    have hr : (255 : Int) ≤ ⌊x + 1 / 2⌋ := by
      rw [Int.le_floor]
      push_cast
      linarith
    rw [hf]
    omega
  · have hg : fgt (some x) 255 = false := by simp [fgt, h1]
    simp only [hg, Bool.false_eq_true, if_false]
    by_cases h0 : x < 0
    · have hl : flt (some x) 0 = true := by simp [flt, h0]
      simp only [hl, if_true, fadd]
      rw [toChar_of_nonneg _ (by norm_num)]
      have hf : ⌊(0 : ℚ) + 1 / 2⌋ = 0 := by
        rw [Int.floor_eq_iff]
        norm_num
      have hr : ⌊x + 1 / 2⌋ ≤ 0 := by
        have : ⌊x + 1 / 2⌋ < 1 := by
          rw [Int.floor_lt]
          push_cast
          linarith
        omega
      rw [hf]
      omega
    · have hl : flt (some x) 0 = false := by simp [flt, h0]
      simp only [hl, Bool.false_eq_true, if_false, fadd]
      have hx0 : 0 ≤ x := not_lt.mp h0
      have hx1 : x ≤ 255 := not_lt.mp h1
      rw [toChar_of_nonneg _ (by linarith)]
      have hr0 : (0 : Int) ≤ ⌊x + 1 / 2⌋ := by
        rw [Int.le_floor]
        push_cast
        linarith
      have hr1 : ⌊x + 1 / 2⌋ < 256 := by
        rw [Int.floor_lt]
        push_cast
        linarith
      omega

/-- C13: for every threshold and every bit depth for which `1 << numBits` is defined
(the stored depths 9..16 among them), `setNoiseThreshold` makes one bus write, of the
3-byte frame `[kOffsetCommand, kCommandNoiseThreshold, v]`, where `v` is
`threshold * 2 ^ b` rounded to the nearest integer and clamped to `[0, 255]`; the byte
the code computes (clamp, add 0.5, truncate) equals this `v`, and `v` is at most
255. -/
theorem setNoiseThreshold_frame (k : Consts) (threshold : ℚ) (s : Trill) (b : Bus)
    (h : s.numBits < 31) :
    [k.kOffsetCommand, k.kCommandNoiseThreshold, noiseByteSpec threshold s.numBits].length = 3 ∧
    (setNoiseThreshold k threshold s b).bus.log =
      b.log ++ BusOp.write
          [k.kOffsetCommand, k.kCommandNoiseThreshold, noiseByteSpec threshold s.numBits]
        :: (if b.nextWrite = 3 then [BusOp.usleep k.commandSleepTime] else []) ∧
    thByte threshold s.numBits = noiseByteSpec threshold s.numBits ∧
    noiseByteSpec threshold s.numBits ≤ 255 := by
  obtain ⟨he, hb⟩ := thByte_eq_spec threshold s.numBits h
  refine ⟨rfl, ?_, he, hb⟩
  unfold setNoiseThreshold
  rw [he]
  by_cases hw : b.nextWrite = 3 <;> simp [hw]

/-- Witness for C13: threshold 5/8192 at 12 bits is 2.5 before rounding; the byte sent
is 3. -/
theorem setNoiseThreshold_frame_witness :
    (setNoiseThreshold trillConsts (5 / 8192) barPrepared (busWith 3 [])).bus.log =
      [BusOp.write [0, 4, noiseByteSpec (5 / 8192) 12], BusOp.usleep 10000] ∧
    thByte (5 / 8192) 12 = noiseByteSpec (5 / 8192) 12 :=
  have h := setNoiseThreshold_frame trillConsts (5 / 8192) barPrepared (busWith 3 [])
    (by decide)
  ⟨h.2.1, h.2.2.1⟩

/-! ## The shift and the table lookup of `updateRescale` -/

/-- C19: what `updateRescale` computes for the bit depths 13..16 that `setScanSettings`
stores.  After a `setScanSettings` whose write reported 4 bytes with a depth argument
above 12, the stored depth `b` is in 13..16, the `unsigned int` difference `12 - b` is
`2 ^ 32 + 12 - b` (not a negative number, and far above the width of an `int`), so
`1 << (12 - b)` has no defined value and neither has the size factor. -/
theorem size_shift_undefined (k : Consts) (speed num_bits : Nat) (s : Trill) (b : Bus)
    (hw : b.nextWrite = 4) (h12 : 12 < num_bits) :
    (13 ≤ (setScanSettings k speed num_bits s b).st.numBits ∧
      (setScanSettings k speed num_bits s b).st.numBits ≤ 16) ∧
    (12 + 4294967296 - (setScanSettings k speed num_bits s b).st.numBits) % 4294967296
      = 4294967308 - (setScanSettings k speed num_bits s b).st.numBits ∧
    shl1 ((12 + 4294967296 - (setScanSettings k speed num_bits s b).st.numBits) % 4294967296)
      = none ∧
    (setScanSettings k speed num_bits s b).st.sizeRescale = none := by
  have hc := (clamp_eq speed num_bits).2
  have hst : (setScanSettings k speed num_bits s b).st =
      updateRescale { s with preparedForDataRead_ := false, numBits := max 9 (min num_bits 16) } := by
    unfold setScanSettings
    simp only [hc, Bus.write_fst, hw, ne_eq, not_true_eq_false, if_false]
  have hnb : (setScanSettings k speed num_bits s b).st.numBits = max 9 (min num_bits 16) := by
    rw [hst]
    rfl
  have hsh : (12 + 4294967296 - max 9 (min num_bits 16)) % 4294967296
      = 4294967308 - max 9 (min num_bits 16) := by omega
  have hnone : shl1 ((12 + 4294967296 - max 9 (min num_bits 16)) % 4294967296) = none := by
    rw [hsh]
    unfold shl1
    rw [if_neg (by omega)]
  refine ⟨by rw [hnb]; omega, by rw [hnb]; exact hsh, by rw [hnb]; exact hnone, ?_⟩
  rw [hst]
  simp only [updateRescale, hnone, ofInt, Option.map_none']
  rfl

/-- A Square set to the full depth the clamp allows: `setScanSettings(0, 16)` succeeds
and stores 16 bits; the shift count is 4294967292 and the size factor is undefined. -/
theorem size_shift_undefined_witness :
    (setScanSettings trillConsts 0 16 { barPrepared with device_type_ := SQUARE }
      (busWith 4 [])).ret = 0 ∧
    (setScanSettings trillConsts 0 16 { barPrepared with device_type_ := SQUARE }
      (busWith 4 [])).st.numBits = 16 ∧
    (setScanSettings trillConsts 0 16 { barPrepared with device_type_ := SQUARE }
      (busWith 4 [])).st.sizeRescale = none := by
  have h := size_shift_undefined trillConsts 0 16 { barPrepared with device_type_ := SQUARE }
    (busWith 4 []) (by decide) (by decide)
  exact ⟨by decide, by decide, h.2.2.2⟩

/-- C20: what happens to the table lookup after an identity response whose variant
byte is not one of the six table codes.  `identify` returns 0 and stores the byte
`x1` as the variant; for `x1` in 6..255 this is no index of `trillRescaleFactors`, and
the `updateRescale` of the next successful `setScanSettings` reads outside the table:
the position, secondary position and size factors get no defined value. -/
theorem lookup_out_of_range (k : Consts) (s : Trill) (b b2 : Bus) (r1 : Option (List Nat))
    (x0 x1 x2 x3 : Nat) (tl : List Nat) (rest : List (Option (List Nat)))
    (speed num_bits : Nat)
    (hw : b.nextWrite = 2)
    (hr : b.readReplies = r1 :: some (x0 :: x1 :: x2 :: x3 :: tl) :: rest)
    (hx : 6 ≤ x1 % 256) (hw2 : b2.nextWrite = 4) :
    (identify k s b).ret = 0 ∧
    (identify k s b).st.device_type_ = ((x1 % 256 : Nat) : Int) ∧
    ¬ ((0 : Int) ≤ (identify k s b).st.device_type_ ∧ (identify k s b).st.device_type_ ≤ 5) ∧
    (setScanSettings k speed num_bits (identify k s b).st b2).ret = 0 ∧
    rescaleAt (setScanSettings k speed num_bits (identify k s b).st b2).st.device_type_ = none ∧
    (setScanSettings k speed num_bits (identify k s b).st b2).st.posRescale = none ∧
    (setScanSettings k speed num_bits (identify k s b).st b2).st.posHRescale = none ∧
    (setScanSettings k speed num_bits (identify k s b).st b2).st.sizeRescale = none := by
  obtain ⟨hret, hdev, -⟩ := identify_second_read k s b r1 x0 x1 x2 x3 tl rest hw hr
  have hc := (clamp_eq speed num_bits).2
  have hnone : rescaleAt (identify k s b).st.device_type_ = none := by
    rw [hdev]
    unfold rescaleAt
    rw [if_pos (Int.natCast_nonneg _), Int.toNat_ofNat]
    apply List.get?_eq_none.mpr
    simp only [trillRescaleFactors, List.length_cons, List.length_nil]
    omega
  have hst : (setScanSettings k speed num_bits (identify k s b).st b2).st =
      updateRescale { (identify k s b).st with
        preparedForDataRead_ := false, numBits := max 9 (min num_bits 16) } := by
    unfold setScanSettings
    simp only [hc, Bus.write_fst, hw2, ne_eq, not_true_eq_false, if_false]
  have hret2 : (setScanSettings k speed num_bits (identify k s b).st b2).ret = 0 := by
    unfold setScanSettings
    simp only [Bus.write_fst, hw2, ne_eq, not_true_eq_false, if_false]
  refine ⟨hret, hdev, ?_, hret2, ?_, ?_, ?_, ?_⟩
  · rw [hdev]
    omega
  · rw [hst]
    exact hnone
  · rw [hst]
    simp only [updateRescale, hnone, Option.map_none']
    rfl
  · rw [hst]
    simp only [updateRescale, hnone, Option.map_none']
    rfl
  · rw [hst]
    simp only [updateRescale, hnone, Option.map_none']
    cases ofInt (shl1 ((12 + 4294967296 - max 9 (min num_bits 16)) % 4294967296)) <;> rfl

/-- An identity response with variant byte 7, then `setScanSettings(0, 12)`: both calls
return 0, the variant is 7 and the position factor is undefined. -/
theorem lookup_out_of_range_witness :
    (identify trillConsts barPrepared (busIdentity [0, 7, 1, 0])).ret = 0 ∧
    (identify trillConsts barPrepared (busIdentity [0, 7, 1, 0])).st.device_type_ = 7 ∧
    (setScanSettings trillConsts 0 12
      (identify trillConsts barPrepared (busIdentity [0, 7, 1, 0])).st (busWith 4 [])).ret = 0 ∧
    (setScanSettings trillConsts 0 12
      (identify trillConsts barPrepared (busIdentity [0, 7, 1, 0])).st
      (busWith 4 [])).st.posRescale = none := by
  have h := lookup_out_of_range trillConsts barPrepared (busIdentity [0, 7, 1, 0])
    (busWith 4 []) (some [0, 7, 1, 0]) 0 7 1 0 [] [] 0 12 rfl rfl (by decide) rfl
  exact ⟨h.1, h.2.1, h.2.2.2.1, h.2.2.2.2.2.1⟩

end Trill

end Bela
